import Mathlib

/-!
Verification of the sambilila-worker job-queue consumer (src/index.ts).

The worker polls a relational store for pending flashcard / quiz jobs,
processes each job (claim, acquire text, generate artifact via an AI
strategy, persist), with a transient-error retry wrapper around every
database operation, a bounded-concurrency batch runner, and an
overlap-preventing poll scheduler.

Embedding conventions:
* JavaScript exceptions are `JsError` values (`name`, `code`, `message`
  fields, each possibly `undefined`, modelled as `Option String`); a
  thrown exception is the `.error` side of `Except`.
* An asynchronous operation that may be attempted several times is a
  function `Nat → Except JsError α` giving the outcome of each attempt.
* JavaScript string truthiness (`if (x)`): `null`/`undefined` and the
  empty string are falsy; modelled on `Option String`.
* String lengths are code-unit counts; all strings in the claims are
  ASCII, where JavaScript's `.length` and Lean's `String.length` agree.
-/

/-- JsError models a JavaScript error value as observed by the worker:
the `catch (error)` blocks read `error.name`, `error.code` and
`error.message`, any of which may be `undefined`. -/
structure JsError where
  name : Option String
  code : Option String
  message : Option String
deriving DecidableEq, Repr

/-- leadMatch n h is true when the list n occurs at the head of h
(character-by-character comparison). -/
def leadMatch : List Char → List Char → Bool
  | [], _ => true
  | _ :: _, [] => false
  | a :: as, b :: bs => a = b && leadMatch as bs

/-- hasSub n h is true when n occurs contiguously somewhere inside h;
it models JavaScript's `String.prototype.includes`. -/
def hasSub (n : List Char) : List Char → Bool
  | [] => leadMatch n []
  | c :: t => leadMatch n (c :: t) || hasSub n t

/-- strIncludes hay needle models JavaScript `hay.includes(needle)`. -/
def strIncludes (hay needle : String) : Bool :=
  hasSub needle.toList hay.toList

/-- isTransient models the connection-error test in executeWithRetry
(src/index.ts line 37): `error.code === 'P2037' ||
error.message?.includes('too many connections')`; an `undefined`
message makes the optional chain falsy. -/
def isTransient (e : JsError) : Bool :=
  e.code = some "P2037" ||
    (match e.message with
     | some m => strIncludes m "too many connections"
     | none => false)

/-- RetryResult is the observable behaviour of one executeWithRetry run:
the returned value or propagated error (`Except.error none` is the
`throw lastError!` with `lastError` still `undefined`, reachable only
when `maxRetries = 0`), how many times the wrapped operation was
invoked, and the list of back-off sleeps in milliseconds, in order. -/
structure RetryResult (α : Type) where
  result : Except (Option JsError) α
  invocations : Nat
  sleeps : List Nat
deriving Repr

/-- retryGo is the loop body of executeWithRetry (src/index.ts lines
29-46): attempt `op i`; on success return; on a transient error sleep
`1000 * (i + 1)` ms and continue; on any other error propagate it.
`fuel` is the number of loop iterations left and `last` the last
observed error (for the final `throw lastError!`). -/
def retryGo {α : Type} (op : Nat → Except JsError α) :
    Nat → Nat → Option JsError → RetryResult α
  | _, 0, last => ⟨.error last, 0, []⟩
  | i, fuel + 1, _ =>
    match op i with
    | .ok v => ⟨.ok v, 1, []⟩
    | .error e =>
      if isTransient e then
        let r := retryGo op (i + 1) fuel (some e)
        ⟨r.result, r.invocations + 1, 1000 * (i + 1) :: r.sleeps⟩
      else ⟨.error (some e), 1, []⟩

/-- executeWithRetry models src/index.ts lines 22-49: run `op` up to
`maxRetries` times, retrying (after a linear back-off sleep) exactly on
transient errors, and propagating the last observed error when all
attempts are exhausted. -/
def executeWithRetry {α : Type} (op : Nat → Except JsError α)
    (maxRetries : Nat := 3) : RetryResult α :=
  retryGo op 0 maxRetries none

/- URL validation.  `isValidUrl` (src/index.ts lines 12-19) runs
`new URL(string)` and accepts iff parsing succeeds and the protocol is
http:, https: or r2:.  The WHATWG URL parser is a platform builtin; we
model the fragment the worker exercises: a URL string is a scheme
(ASCII letter followed by letters, digits, `+`, `-`, `.`), a colon, and
a remainder; the scheme is lowercased into `protocol`; for the special
schemes (http, https, ws, wss, ftp, file) the remainder must contain a
nonempty host, otherwise parsing throws. -/
/-- schemeChar is true for characters allowed after the first character
of a URL scheme. -/
def schemeChar (c : Char) : Bool :=
  c.isAlpha || c.isDigit || c = '+' || c = '-' || c = '.'

/-- splitSchemeGo accumulates scheme characters (reversed in acc) until
the terminating colon; any other character is a parse failure. -/
def splitSchemeGo (acc : List Char) : List Char → Option (List Char × List Char)
  | [] => none
  | c :: rest =>
    if c = ':' then some (acc.reverse, rest)
    else if schemeChar c then splitSchemeGo (c :: acc) rest
    else none

/-- splitScheme splits a URL string into its scheme (which must start
with an ASCII letter) and the remainder after the colon. -/
def splitScheme : List Char → Option (List Char × List Char)
  | [] => none
  | c :: rest => if c.isAlpha then splitSchemeGo [c] rest else none

/-- specialScheme lists the WHATWG special schemes, which require a
nonempty host component. -/
def specialScheme (sch : String) : Bool :=
  sch = "http" || sch = "https" || sch = "ws" || sch = "wss" ||
    sch = "ftp" || sch = "file"

/-- hostPart extracts the host component from the remainder after the
scheme colon: leading slashes are skipped and the host runs up to the
next delimiter. -/
def hostPart (rest : List Char) : List Char :=
  (rest.dropWhile (fun c => c = '/' || c = '\\')).takeWhile
    (fun c => !(c = '/' || c = '\\' || c = '?' || c = '#'))

/-- jsURLProtocol models `new URL(s).protocol`: `some p` when parsing
succeeds with protocol p (lowercased scheme plus a colon), `none` when
the constructor throws. -/
def jsURLProtocol (s : String) : Option String :=
  match splitScheme s.toList with
  | none => none
  | some (sch, rest) =>
    let low := String.mk (sch.map Char.toLower)
    if specialScheme low then
      if (hostPart rest).isEmpty then none else some (low ++ ":")
    else some (low ++ ":")

/-- isValidUrl models src/index.ts lines 12-19: parse the string as a
URL and accept exactly the protocols http:, https: and r2:. -/
def isValidUrl (s : String) : Bool :=
  match jsURLProtocol s with
  | some p => p = "http:" || p = "https:" || p = "r2:"
  | none => false

/- Job processor embedding.  processFlashcardJob (src/index.ts lines
51-157) and processQuizJob (lines 159-282) drive one claimed job to a
terminal state.  Each database operation is wrapped in executeWithRetry
with maxRetries = 3; its per-attempt outcomes come from an environment
record.  The extraction and generation strategies are external
collaborators whose single-call outcome the environment also supplies.
The processor's observable effect is a ProcState: the job row, the
created artifact (id and ordered child records) and a trace of the
operations invoked, in order. -/
/-- truthyS models JavaScript truthiness of a nullable string field:
null/undefined and the empty string are falsy. -/
def truthyS : Option String → Bool
  | some s => !s.isEmpty
  | none => false

/-- jsTextOf gives the text content taken from the inline `text` field:
the field's value when truthy, the initial empty string otherwise
(src/index.ts lines 66, 86-89). -/
def jsTextOf (t : Option String) : String := t.getD ""

/-- messageOr models `error.message || dflt`: the message when it is a
nonempty string, the default when it is undefined or empty. -/
def messageOr (e : JsError) (dflt : String) : String :=
  match e.message with
  | some m => if m.isEmpty then dflt else m
  | none => dflt

/-- errOfOpt turns the error side of a RetryResult into the thrown
value; `none` (a throw of `undefined`, possible only with zero
retries) becomes an error with every field undefined. -/
def errOfOpt : Option JsError → JsError
  | some e => e
  | none => ⟨none, none, none⟩

/-- mkErr models `new Error(msg)`. -/
def mkErr (msg : String) : JsError := ⟨none, none, some msg⟩

/-- FlashJob is the row shape fetched for flashcard jobs
(src/index.ts lines 327-341). -/
structure FlashJob where
  id : Nat
  userId : Nat
  fileUrl : Option String
  text : Option String
  title : String
  subject : Option String
  description : Option String

/-- Card is one item returned by the flashcard Generation Strategy. -/
structure Card where
  front : String
  back : String
deriving DecidableEq, Repr

/-- CardRecord is one persisted child row of a flashcard set, with its
explicit order index (src/index.ts lines 109-113). -/
structure CardRecord where
  front : String
  back : String
  order : Nat
deriving DecidableEq, Repr

/-- Ev records one invocation of an external operation by a processor,
in program order; the quiz generation event carries the normalized
generation parameters it was invoked with. -/
inductive Ev
  | updProcessing
  | extractCall
  | generateCards
  | generateQuiz (n : Int) (difficulty : String) (qtypes : List String)
  | createArtifact
  | updDone
  | updFailed
deriving DecidableEq, Repr

/-- JobRow is the job's mutable database row as the processor touches
it: status, error message, and the result reference column
(flashcardSetId or quizId). -/
structure JobRow where
  status : String
  error : Option String
  resultRef : Option Nat
deriving DecidableEq, Repr

/-- ProcState is the observable state threaded through one processor
run: the job row, the created artifact (its id and child records of
type χ) and the trace of operations invoked so far. -/
structure ProcState (χ : Type) where
  row : JobRow
  artifact : Option (Nat × List χ)
  trace : List Ev

/-- addEv appends one invocation event to the trace. -/
def addEv {χ : Type} (s : ProcState χ) (e : Ev) : ProcState χ :=
  { s with trace := s.trace ++ [e] }

/-- FlashEnv gives the outcome of each external operation of one
flashcard-job run: per-attempt outcomes for the retried database
operations, single outcomes for the strategy calls. -/
structure FlashEnv where
  updProcessing : Nat → Except JsError Unit
  extract : Except JsError String
  generate : Except JsError (List Card)
  createSet : Nat → Except JsError Nat
  updDone : Nat → Except JsError Unit
  updFailed : Nat → Except JsError Unit

/-- acquireText models the duplicated text-acquisition block
(src/index.ts lines 66-89 and 174-197): a truthy fileUrl must pass
isValidUrl (else `Invalid file URL` is thrown) and is handed to the
Extraction Strategy, with an AbortError renamed to the download-timeout
error; otherwise a truthy inline text field is used; otherwise the text
stays empty. -/
def acquireText {χ : Type} (fileUrl text : Option String)
    (extract : Except JsError String) (s : ProcState χ) :
    Except (JsError × ProcState χ) (String × ProcState χ) :=
  match fileUrl with
  | some u =>
    if u.isEmpty then .ok (jsTextOf text, s)
    else if !isValidUrl u then
      .error (mkErr ("Invalid file URL: " ++ u ++
        ". Must be http, https, or r2 protocol."), s)
    else
      let s1 := addEv s .extractCall
      match extract with
      | .ok t => .ok (t, s1)
      | .error fe =>
        if fe.name = some "AbortError" then
          .error (mkErr "File download timeout (30 seconds)", s1)
        else .error (fe, s1)
  | none => .ok (jsTextOf text, s)

/-- flashBody is the try-block of processFlashcardJob (src/index.ts
lines 54-135): claim the job (status PROCESSING), acquire text, check
the 50-character minimum, generate cards, create the flashcard set with
0-based order indices, and mark the job DONE with flashcardSetId set.
A thrown error carries the state at the throw point. -/
def flashBody (job : FlashJob) (env : FlashEnv) (s0 : ProcState CardRecord) :
    Except (JsError × ProcState CardRecord) (ProcState CardRecord) :=
  let sA := addEv s0 .updProcessing
  match (executeWithRetry env.updProcessing 3).result with
  | .error oe => .error (errOfOpt oe, sA)
  | .ok _ =>
    let s1 : ProcState CardRecord :=
      { sA with row := { sA.row with status := "PROCESSING" } }
    match acquireText job.fileUrl job.text env.extract s1 with
    | .error p => .error p
    | .ok (txt, s2) =>
      if txt.isEmpty || txt.length < 50 then
        .error (mkErr
          "Content too short to generate flashcards (minimum 50 characters)", s2)
      else
        let s3 := addEv s2 .generateCards
        match env.generate with
        | .error e => .error (e, s3)
        | .ok cards =>
          let s4 := addEv s3 .createArtifact
          match (executeWithRetry env.createSet 3).result with
          | .error oe => .error (errOfOpt oe, s4)
          | .ok sid =>
            let records := cards.enum.map (fun ic =>
              CardRecord.mk ic.2.front ic.2.back ic.1)
            let s5 : ProcState CardRecord :=
              { s4 with artifact := some (sid, records) }
            let s6 := addEv s5 .updDone
            match (executeWithRetry env.updDone 3).result with
            | .error oe => .error (errOfOpt oe, s6)
            | .ok _ =>
              .ok { s6 with row :=
                { s6.row with status := "DONE", resultRef := some sid } }

/-- failWrite is the catch-block of both processors (src/index.ts lines
137-156 and 262-281): best-effort write of status FAILED with
`error.message || 'Unknown error'`, itself retried; if even that write
fails the state is left as it was. -/
def failWrite {χ : Type} (updFailed : Nat → Except JsError Unit)
    (s : ProcState χ) (e : JsError) : ProcState χ :=
  let msg := messageOr e "Unknown error"
  let s1 := addEv s .updFailed
  match (executeWithRetry updFailed 3).result with
  | .ok _ =>
    { s1 with row := { s1.row with status := "FAILED", error := some msg } }
  | .error _ => s1

/-- processFlashcardJob models src/index.ts lines 51-157: run the body;
any thrown error is caught at this single boundary and converted into a
best-effort FAILED write.  The function always returns a state — no
exception propagates to the caller. -/
def processFlashcardJob (job : FlashJob) (env : FlashEnv)
    (s0 : ProcState CardRecord) : ProcState CardRecord :=
  match flashBody job env s0 with
  | .ok s => s
  | .error (e, s) => failWrite env.updFailed s e

/- Quiz-job embedding, mirroring the duplicated control flow of
processQuizJob (src/index.ts lines 159-282) with the quiz-specific
parameter normalization (lines 203-206) and question mapping
(lines 230-238). -/
/-- StrOrJson models the dynamic type of a generated question's
correctAnswer: a string is stored as-is, any other value is stored
JSON-stringified (src/index.ts lines 234-236); the non-string case
carries its rendered JSON text. -/
inductive StrOrJson
  | str (s : String)
  | json (rendered : String)
deriving DecidableEq, Repr

/-- Question is one item of the quiz Generation Strategy's payload. -/
structure Question where
  qtype : String
  question : String
  options : Option (List String)
  correctAnswer : StrOrJson
deriving DecidableEq, Repr

/-- QuizPayload is the quiz Generation Strategy's result object; the
processor reads only its questions list. -/
structure QuizPayload where
  questions : List Question
deriving DecidableEq, Repr

/-- QuestionRecord is one persisted child row of a quiz, with its
explicit order index (src/index.ts lines 230-238). -/
structure QuestionRecord where
  qtype : String
  question : String
  options : List String
  correctAnswer : String
  order : Nat
deriving DecidableEq, Repr

/-- QuizJob is the row shape fetched for quiz jobs (src/index.ts lines
368-383); numberOfQuestions is kept as its raw stored text, as the
processor runs it through parseInt. -/
structure QuizJob where
  id : Nat
  userId : Nat
  fileUrl : Option String
  text : Option String
  title : String
  subject : Option String
  numberOfQuestions : Option String
  difficulty : Option String
  questionTypes : Option String

/-- QuizEnv gives the outcome of each external operation of one
quiz-job run. -/
structure QuizEnv where
  updProcessing : Nat → Except JsError Unit
  extract : Except JsError String
  generate : Except JsError QuizPayload
  createQuiz : Nat → Except JsError Nat
  updDone : Nat → Except JsError Unit
  updFailed : Nat → Except JsError Unit

/-- hexDigitChar is true for an ASCII hexadecimal digit. -/
def hexDigitChar (c : Char) : Bool :=
  c.isDigit || ('a' ≤ c && c ≤ 'f') || ('A' ≤ c && c ≤ 'F')

/-- hexVal maps an ASCII hexadecimal digit to its value. -/
def hexVal (c : Char) : Nat :=
  if c.isDigit then c.toNat - '0'.toNat
  else if 'a' ≤ c && c ≤ 'f' then c.toNat - 'a'.toNat + 10
  else if 'A' ≤ c && c ≤ 'F' then c.toNat - 'A'.toNat + 10
  else 0

/-- natOfDigits folds a digit list into its value in the given base. -/
def natOfDigits (base : Nat) (ds : List Char) : Nat :=
  ds.foldl (fun acc c => acc * base + hexVal c) 0

/-- parseIntCore models the JavaScript builtin `parseInt(s)` with no
radix argument: skip leading whitespace, read an optional sign, then
the longest hexadecimal digit run after a `0x`/`0X` marker or else the
longest decimal digit run; no digits means NaN, modelled as none. -/
def parseIntCore (cs0 : List Char) : Option Int :=
  let cs1 := cs0.dropWhile Char.isWhitespace
  let sign : Int := match cs1 with
    | '-' :: _ => -1
    | _ => 1
  let cs2 := match cs1 with
    | '-' :: t => t
    | '+' :: t => t
    | _ => cs1
  match cs2 with
  | '0' :: x :: t =>
    if x = 'x' || x = 'X' then
      let ds := t.takeWhile hexDigitChar
      if ds.isEmpty then none else some (sign * (natOfDigits 16 ds : Nat))
    else
      let ds := ('0' :: x :: t).takeWhile Char.isDigit
      if ds.isEmpty then none else some (sign * (natOfDigits 10 ds : Nat))
  | _ =>
    let ds := cs2.takeWhile Char.isDigit
    if ds.isEmpty then none else some (sign * (natOfDigits 10 ds : Nat))

/-- parseIntJS models `parseInt(v)` on the stored nullable value: a
null/undefined value coerces to a digit-free string, giving NaN
(modelled as none). -/
def parseIntJS : Option String → Option Int
  | none => none
  | some s => parseIntCore s.toList

/-- quizNumQuestions models `parseInt(job.numberOfQuestions) || 10`
(src/index.ts line 204): NaN and 0 both fall back to 10. -/
def quizNumQuestions (v : Option String) : Int :=
  match parseIntJS v with
  | some k => if k = 0 then 10 else k
  | none => 10

/-- quizDifficulty models `job.difficulty || 'medium'` (src/index.ts
line 205): undefined and the empty string fall back to 'medium'. -/
def quizDifficulty (v : Option String) : String :=
  match v with
  | some d => if d.isEmpty then "medium" else d
  | none => "medium"

/-- splitCommaGo splits a character list at commas, accumulating the
current piece reversed; it models the piece structure of JavaScript
`split(',')`, under which an empty input gives one empty piece. -/
def splitCommaGo (cur : List Char) : List Char → List (List Char)
  | [] => [cur.reverse]
  | c :: t =>
    if c = ',' then cur.reverse :: splitCommaGo [] t
    else splitCommaGo (c :: cur) t

/-- jsSplitComma models the JavaScript builtin `s.split(',')`. -/
def jsSplitComma (s : String) : List String :=
  (splitCommaGo [] s.toList).map String.mk

/-- quizQuestionTypes models `job.questionTypes ?
job.questionTypes.split(',') : ['multiple_choice']` (src/index.ts line
206): a truthy stored string is split on commas, a falsy one
(undefined or empty) gives the default single-element list. -/
def quizQuestionTypes (v : Option String) : List String :=
  match v with
  | some t => if t.isEmpty then ["multiple_choice"] else jsSplitComma t
  | none => ["multiple_choice"]

/-- replaceFirstChar replaces the first occurrence of a with b,
modelling JavaScript `replace` with a string pattern, which replaces
only the first match. -/
def replaceFirstChar (a b : Char) : List Char → List Char
  | [] => []
  | c :: cs => if c = a then b :: cs else c :: replaceFirstChar a b cs

/-- jsTypeField models `question.type.toUpperCase().replace(' ', '_')`
(src/index.ts line 231). -/
def jsTypeField (t : String) : String :=
  String.mk (replaceFirstChar ' ' '_' t.toUpper.toList)

/-- questionRecordOf maps one generated question to its persisted child
row (src/index.ts lines 230-238): type normalized, options defaulting
to the empty list, a non-string correctAnswer JSON-stringified, and the
explicit 0-based order index. -/
def questionRecordOf (i : Nat) (q : Question) : QuestionRecord :=
  { qtype := jsTypeField q.qtype
    question := q.question
    options := q.options.getD []
    correctAnswer :=
      match q.correctAnswer with
      | .str s => s
      | .json r => r
    order := i }

/-- quizBody is the try-block of processQuizJob (src/index.ts lines
162-260): claim, acquire text, 50-character check, normalize the
generation parameters, generate, create the quiz with 0-based order
indices, and mark the job DONE with quizId set. -/
def quizBody (job : QuizJob) (env : QuizEnv) (s0 : ProcState QuestionRecord) :
    Except (JsError × ProcState QuestionRecord) (ProcState QuestionRecord) :=
  let sA := addEv s0 .updProcessing
  match (executeWithRetry env.updProcessing 3).result with
  | .error oe => .error (errOfOpt oe, sA)
  | .ok _ =>
    let s1 : ProcState QuestionRecord :=
      { sA with row := { sA.row with status := "PROCESSING" } }
    match acquireText job.fileUrl job.text env.extract s1 with
    | .error p => .error p
    | .ok (txt, s2) =>
      if txt.isEmpty || txt.length < 50 then
        .error (mkErr
          "Content too short to generate quiz (minimum 50 characters)", s2)
      else
        let n := quizNumQuestions job.numberOfQuestions
        let diff := quizDifficulty job.difficulty
        let qts := quizQuestionTypes job.questionTypes
        let s3 := addEv s2 (.generateQuiz n diff qts)
        match env.generate with
        | .error e => .error (e, s3)
        | .ok payload =>
          let s4 := addEv s3 .createArtifact
          match (executeWithRetry env.createQuiz 3).result with
          | .error oe => .error (errOfOpt oe, s4)
          | .ok qid =>
            let records := payload.questions.enum.map
              (fun iq => questionRecordOf iq.1 iq.2)
            let s5 : ProcState QuestionRecord :=
              { s4 with artifact := some (qid, records) }
            let s6 := addEv s5 .updDone
            match (executeWithRetry env.updDone 3).result with
            | .error oe => .error (errOfOpt oe, s6)
            | .ok _ =>
              .ok { s6 with row :=
                { s6.row with status := "DONE", resultRef := some qid } }

/-- processQuizJob models src/index.ts lines 159-282: run the body; any
thrown error is caught at this single boundary and converted into a
best-effort FAILED write.  The function always returns a state — no
exception propagates to the caller. -/
def processQuizJob (job : QuizJob) (env : QuizEnv)
    (s0 : ProcState QuestionRecord) : ProcState QuestionRecord :=
  match quizBody job env s0 with
  | .ok s => s
  | .error (e, s) => failWrite env.updFailed s e

/- Bounded Batch Runner embedding.  runInBatches (src/index.ts lines
289-319) starts min(limit, tasks.length) runNext chains; each chain
synchronously admits the task at the shared cursor, awaits it
(swallowing rejection), and on settlement immediately admits the next
queued task.  JavaScript's single-threaded run-to-completion model
makes settle-then-admit one atomic step, so the runner's behaviour over
a list of n tasks is the small-step system below: a state holds the
cursor, the set of in-flight task indices and the set of settled ones;
one step settles an in-flight task (either outcome) and admits the next
queued task if any.  runInBatches returns exactly when no chain has
work left, i.e. in a terminal state. -/
/-- BatchState is one instant of a runInBatches run over n tasks with
the given concurrency limit: next is the shared cursor, running the
indices of unsettled started tasks, done the settled ones. -/
structure BatchState where
  n : Nat
  limit : Nat
  next : Nat
  running : Finset Nat
  done : Finset Nat
deriving DecidableEq

/-- BatchState.init is the state after the synchronous start-up loop
(src/index.ts lines 313-316): the first min(limit, n) tasks have been
admitted and none has settled. -/
def BatchState.init (n limit : Nat) : BatchState :=
  { n := n
    limit := limit
    next := min limit n
    running := Finset.range (min limit n)
    done := ∅ }

/-- BatchStep settles one in-flight task and, in the same runNext
continuation, admits the task at the cursor when the list is not
exhausted (src/index.ts lines 293-311); the settled task's own success
or rejection is irrelevant because rejections are caught inside the
chain. -/
inductive BatchStep : BatchState → BatchState → Prop
  | settle (s : BatchState) (t : Nat) (ht : t ∈ s.running) :
      BatchStep s
        { n := s.n
          limit := s.limit
          next := if s.next < s.n then s.next + 1 else s.next
          running := (s.running.erase t) ∪
            (if s.next < s.n then {s.next} else ∅)
          done := insert t s.done }

/-- BatchReach n limit s says state s is reachable in a runInBatches
run over n tasks with the given limit. -/
def BatchReach (n limit : Nat) (s : BatchState) : Prop :=
  Relation.ReflTransGen BatchStep (BatchState.init n limit) s

/-- BatchTerminal marks the states where every started chain has
returned, which is exactly when runInBatches' awaited Promise.all
resolves. -/
def BatchTerminal (s : BatchState) : Prop := ∀ s', ¬ BatchStep s s'

/- Poll Scheduler embedding.  safePollJobs (src/index.ts lines 428-441)
guards every timer tick with the module-level isPolling flag and the
shutdownRequested flag; pollJobs (lines 404-422) re-checks shutdown.
A poll cycle's database effects are abstracted as a state
transformer supplied by the environment. -/
/-- WorkerState is the scheduler-visible worker state: the two guard
flags plus counters of observable poll effects (database fetch queries
issued and jobs claimed). -/
structure WorkerState where
  isPolling : Bool
  shutdownRequested : Bool
  fetches : Nat
  claims : Nat
deriving DecidableEq, Repr

/-- pollJobsM models pollJobs (src/index.ts lines 404-422): a no-op
when shutdown was requested, otherwise one polling cycle whose
fetch/claim effects are given by eff. -/
def pollJobsM (eff : WorkerState → WorkerState) (s : WorkerState) :
    WorkerState :=
  if s.shutdownRequested then s else eff s

/-- safePollJobs models src/index.ts lines 428-441: a tick arriving
while isPolling is set or after shutdown returns immediately; otherwise
the cycle runs with isPolling set and the flag is cleared in the
finally block. -/
def safePollJobs (eff : WorkerState → WorkerState) (s : WorkerState) :
    WorkerState :=
  if s.isPolling || s.shutdownRequested then s
  else
    let s1 := { s with isPolling := true }
    let s2 := pollJobsM eff s1
    { s2 with isPolling := false }

/-- c1op is a concrete operation failing with a connection-pool error
on its first two attempts and succeeding on the third. -/
def c1op : Nat → Except JsError Nat :=
  fun i => if i < 2 then .error (mkErr "too many connections") else .ok 7

/-- pollEffDemo is a concrete poll cycle performing one fetch and two
claims, used to witness that a dropped tick performs neither. -/
def pollEffDemo : WorkerState → WorkerState :=
  fun s => { s with fetches := s.fetches + 1, claims := s.claims + 2 }

/-- okU is an always-succeeding database operation. -/
def okU : Nat → Except JsError Unit := fun _ => .ok ()

/-- initRow is a freshly fetched PENDING job row. -/
def initRow : JobRow := ⟨"PENDING", none, none⟩

/-- initState is the initial processor state of a flashcard run. -/
def initState : ProcState CardRecord := ⟨initRow, none, []⟩

/-- initStateQ is the initial processor state of a quiz run. -/
def initStateQ : ProcState QuestionRecord := ⟨initRow, none, []⟩

/-- longText is a 52-character inline text, above the minimum. -/
def longText : String :=
  "abcdefghijklmnopqrstuvwxyzabcdefghijklmnopqrstuvwxyz"

/-- flashJobText builds a text-only flashcard job. -/
def flashJobText (t : Option String) : FlashJob :=
  ⟨1, 1, none, t, "T", none, none⟩

/-- flashEnvAllOk is an environment whose database operations all
succeed (the created set id is 7) and whose generation outcome is
given. -/
def flashEnvAllOk (gen : Except JsError (List Card)) : FlashEnv :=
  ⟨okU, .error (mkErr "no extraction in this run"), gen,
   fun _ => .ok 7, okU, okU⟩

/-- invalidUrlJob carries the malformed file reference "not-a-url". -/
def invalidUrlJob : FlashJob :=
  ⟨3, 1, some "not-a-url", none, "T", none, none⟩

/-- quizJobOf builds a quiz job from its nullable stored fields. -/
def quizJobOf (fileUrl text nq diff qts : Option String) : QuizJob :=
  ⟨2, 1, fileUrl, text, "T", none, nq, diff, qts⟩

/-- quizEnvAllOk is a quiz environment whose database operations all
succeed (the created quiz id is 9) and whose generation outcome is
given. -/
def quizEnvAllOk (gen : Except JsError QuizPayload) : QuizEnv :=
  ⟨okU, .error (mkErr "no extraction in this run"), gen,
   fun _ => .ok 9, okU, okU⟩

/-- shortText is a 30-character inline text, below the minimum. -/
def shortText : String := "abcdefghijklmnopqrstuvwxyzabcd"

/-- demoCards is a two-card generation result. -/
def demoCards : List Card := [⟨"q1", "a1"⟩, ⟨"q2", "a2"⟩]

/-- c4FinalState is the final state of the successful demo flashcard
run: DONE, set id 7, two cards with orders 0 and 1. -/
def c4FinalState : ProcState CardRecord :=
  ⟨⟨"DONE", none, some 7⟩,
   some (7, [⟨"q1", "a1", 0⟩, ⟨"q2", "a2", 1⟩]),
   [Ev.updProcessing, Ev.generateCards, Ev.createArtifact, Ev.updDone]⟩

/-- BatchInv is the inductive invariant of a runInBatches run: the
admitted tasks are exactly the indices below the cursor, each is
either in flight or settled but never both, at most limit are in
flight, and an empty in-flight set means the list was exhausted (or
nothing was ever admitted). -/
def BatchInv (n limit : Nat) (s : BatchState) : Prop :=
  s.n = n ∧ s.limit = limit ∧ s.next ≤ n ∧ min limit n ≤ s.next ∧
  s.running ∪ s.done = Finset.range s.next ∧
  Disjoint s.running s.done ∧
  s.running.card ≤ limit ∧
  (s.running = ∅ → s.next = n ∨ s.next = 0)

/- Theorems. -/

/-- retryGo invokes the wrapped operation at most fuel times. -/
theorem retryGo_invocations_le {α : Type} (op : Nat → Except JsError α) :
    ∀ (fuel i : Nat) (last : Option JsError),
      (retryGo op i fuel last).invocations ≤ fuel := by
  intro fuel
  induction fuel with
  | zero => intro i last; simp [retryGo]
  | succ k ih =>
    intro i last
    simp only [retryGo]
    cases h : op i with
    | ok v => simp
    | error e =>
      by_cases ht : isTransient e
      · simpa [ht] using Nat.succ_le_succ (ih (i + 1) (some e))
      · simp [ht]

/-- C1: executeWithRetry with the default maxRetries = 3 invokes the
operation at most 3 times; a transient failure on attempt i (0-based)
is followed by a sleep of (i+1)*1000 ms and a retry; a permanent
failure propagates at once after exactly one invocation; two transient
failures then a success return the success after exactly 3 invocations;
three transient failures propagate the last observed error. -/
theorem executeWithRetry_c1 {α : Type} (op : Nat → Except JsError α) :
    (executeWithRetry op 3).invocations ≤ 3 ∧
    (∀ (e0 e1 : JsError) (v : α), isTransient e0 = true →
      isTransient e1 = true → op 0 = .error e0 → op 1 = .error e1 →
      op 2 = .ok v →
      executeWithRetry op 3 = ⟨.ok v, 3, [1000, 2000]⟩) ∧
    (∀ e : JsError, isTransient e = false → op 0 = .error e →
      executeWithRetry op 3 = ⟨.error (some e), 1, []⟩) ∧
    (∀ e0 e1 e2 : JsError, isTransient e0 = true → isTransient e1 = true →
      isTransient e2 = true → op 0 = .error e0 → op 1 = .error e1 →
      op 2 = .error e2 →
      executeWithRetry op 3 = ⟨.error (some e2), 3, [1000, 2000, 3000]⟩) ∧
    (∀ v : α, op 0 = .ok v → executeWithRetry op 3 = ⟨.ok v, 1, []⟩) ∧
    (∀ e0 e1 : JsError, isTransient e0 = true → isTransient e1 = false →
      op 0 = .error e0 → op 1 = .error e1 →
      executeWithRetry op 3 = ⟨.error (some e1), 2, [1000]⟩) := by
  refine ⟨retryGo_invocations_le op 3 0 none, ?_, ?_, ?_, ?_, ?_⟩
  · intro e0 e1 v h0 h1 o0 o1 o2
    simp [executeWithRetry, retryGo, o0, o1, o2, h0, h1]
  · intro e h0 o0
    simp [executeWithRetry, retryGo, o0, h0]
  · intro e0 e1 e2 h0 h1 h2 o0 o1 o2
    simp [executeWithRetry, retryGo, o0, o1, o2, h0, h1, h2]
  · intro v o0
    simp [executeWithRetry, retryGo, o0]
  · intro e0 e1 h0 h1 o0 o1
    simp [executeWithRetry, retryGo, o0, o1, h0, h1]

/-- C1 witness: on c1op the retry executor returns the success value 7
after exactly 3 invocations, having slept 1000 then 2000 ms. -/
theorem executeWithRetry_c1_witness :
    executeWithRetry c1op 3 = ⟨.ok 7, 3, [1000, 2000]⟩ :=
  (executeWithRetry_c1 c1op).2.1 (mkErr "too many connections")
    (mkErr "too many connections") 7 (by decide) (by decide) rfl rfl rfl

/-- length_zero_eq_empty recovers the empty string from length 0. -/
theorem length_zero_eq_empty (s : String) (h : s.length = 0) : s = "" := by
  cases s with
  | mk data =>
    have hd : data = [] := List.length_eq_zero.mp h
    simp [hd]

/-- append_ne_empty says appending to a nonempty string stays nonempty. -/
theorem append_ne_empty (a b : String) (ha : a ≠ "") : (a ++ b) ≠ "" := by
  intro h
  apply ha
  have hl := congrArg String.length h
  rw [String.length_append] at hl
  exact length_zero_eq_empty a (Nat.eq_zero_of_add_eq_zero_right hl)

/-- isEmpty_false_of_ne turns a ≠ "" fact into an isEmpty equation. -/
theorem isEmpty_false_of_ne (s : String) (h : s ≠ "") : s.isEmpty = false := by
  cases he : s.isEmpty
  · rfl
  · exact absurd ((String.isEmpty_iff s).mp he) h

/-- messageOr_ne_empty: the stored failure message is never the empty
string (it falls back to 'Unknown error'). -/
theorem messageOr_ne_empty (e : JsError) : messageOr e "Unknown error" ≠ "" := by
  unfold messageOr
  cases hm : e.message with
  | none => decide
  | some m =>
    cases hme : m.isEmpty with
    | true =>
      simp only [hme, if_true]
      decide
    | false =>
      simp only [hme]
      intro hc
      have hm0 : m = "" := by simpa using hc
      rw [hm0] at hme
      exact absurd hme (by decide)

/-- messageOr_mkErr: a thrown `new Error(msg)` with nonempty msg is
stored verbatim. -/
theorem messageOr_mkErr (msg d : String) (h : msg ≠ "") :
    messageOr (mkErr msg) d = msg := by
  simp [messageOr, mkErr, isEmpty_false_of_ne msg h]

/-- acquireText_ok_state: a successful text acquisition leaves the job
row and artifact untouched and only appends to the trace. -/
theorem acquireText_ok_state {χ : Type} (fu tx : Option String)
    (ex : Except JsError String) (s : ProcState χ) (txt : String)
    (s' : ProcState χ) (h : acquireText fu tx ex s = .ok (txt, s')) :
    s'.row = s.row ∧ s'.artifact = s.artifact ∧
      (s'.trace = s.trace ∨ s'.trace = s.trace ++ [Ev.extractCall]) := by
  unfold acquireText at h
  cases fu with
  | none =>
    simp only [Except.ok.injEq, Prod.mk.injEq] at h
    rw [← h.2]
    exact ⟨rfl, rfl, Or.inl rfl⟩
  | some u =>
    cases hue : u.isEmpty with
    | true =>
      simp [hue] at h
      rw [← h.2]
      exact ⟨rfl, rfl, Or.inl rfl⟩
    | false =>
      cases hv : isValidUrl u with
      | false => simp [hue, hv] at h
      | true =>
        cases hex : ex with
        | ok t =>
          simp [hue, hv, hex] at h
          rw [← h.2]
          exact ⟨rfl, rfl, Or.inr rfl⟩
        | error fe =>
          by_cases hab : fe.name = some "AbortError" <;>
            simp [hue, hv, hex, hab] at h

/-- acquireText_err_state: a failed text acquisition leaves the job row
and artifact untouched and only appends to the trace. -/
theorem acquireText_err_state {χ : Type} (fu tx : Option String)
    (ex : Except JsError String) (s : ProcState χ) (e : JsError)
    (s' : ProcState χ) (h : acquireText fu tx ex s = .error (e, s')) :
    s'.row = s.row ∧ s'.artifact = s.artifact ∧
      (s'.trace = s.trace ∨ s'.trace = s.trace ++ [Ev.extractCall]) := by
  unfold acquireText at h
  cases fu with
  | none => simp at h
  | some u =>
    cases hue : u.isEmpty with
    | true => simp [hue] at h
    | false =>
      cases hv : isValidUrl u with
      | false =>
        simp [hue, hv] at h
        rw [← h.2]
        exact ⟨rfl, rfl, Or.inl rfl⟩
      | true =>
        cases hex : ex with
        | ok t => simp [hue, hv, hex] at h
        | error fe =>
          by_cases hab : fe.name = some "AbortError"
          · simp [hue, hv, hex, hab] at h
            rw [← h.2]
            exact ⟨rfl, rfl, Or.inr rfl⟩
          · simp [hue, hv, hex, hab] at h
            rw [← h.2]
            exact ⟨rfl, rfl, Or.inr rfl⟩


/-- flashBody_err_state: when the flashcard body throws, the job row's
error and resultRef columns are still at their initial values at the
catch boundary. -/
theorem flashBody_err_state (job : FlashJob) (env : FlashEnv)
    (s0 : ProcState CardRecord) (e : JsError) (s : ProcState CardRecord)
    (h : flashBody job env s0 = .error (e, s)) :
    s.row.resultRef = s0.row.resultRef ∧ s.row.error = s0.row.error := by
  unfold flashBody at h
  split at h
  · simp only [Except.error.injEq, Prod.mk.injEq] at h
    rw [← h.2]
    exact ⟨rfl, rfl⟩
  · dsimp only at h
    split at h
    · rename_i p heqA
      obtain ⟨e', s'⟩ := p
      simp only [Except.error.injEq, Prod.mk.injEq] at h
      rw [← h.2]
      have hst := (acquireText_err_state _ _ _ _ _ _ heqA).1
      rw [hst]
      exact ⟨rfl, rfl⟩
    · rename_i txt s2 heqA
      have hst := (acquireText_ok_state _ _ _ _ _ _ heqA).1
      have hr : s2.row.resultRef = s0.row.resultRef ∧
          s2.row.error = s0.row.error := by
        rw [hst]
        exact ⟨rfl, rfl⟩
      split at h
      · simp only [Except.error.injEq, Prod.mk.injEq] at h
        rw [← h.2]
        exact hr
      · split at h
        · simp only [Except.error.injEq, Prod.mk.injEq] at h
          rw [← h.2]
          exact hr
        · split at h
          · simp only [Except.error.injEq, Prod.mk.injEq] at h
            rw [← h.2]
            exact hr
          · split at h
            · simp only [Except.error.injEq, Prod.mk.injEq] at h
              rw [← h.2]
              exact hr
            · simp at h

/-- flashBody_ok_state: a successful flashcard body run ends with
status DONE, the created set's id in resultRef, the error column
untouched, and an artifact whose children are the generated cards in
order with 0-based order indices. -/
theorem flashBody_ok_state (job : FlashJob) (env : FlashEnv)
    (s0 : ProcState CardRecord) (s : ProcState CardRecord)
    (h : flashBody job env s0 = .ok s) :
    ∃ sid cards, env.generate = .ok cards ∧
      s.row.status = "DONE" ∧ s.row.resultRef = some sid ∧
      s.row.error = s0.row.error ∧
      s.artifact = some (sid, cards.enum.map (fun ic =>
        CardRecord.mk ic.2.front ic.2.back ic.1)) := by
  unfold flashBody at h
  split at h
  · simp at h
  · dsimp only at h
    split at h
    · simp at h
    · rename_i txt s2 heqA
      have hst := (acquireText_ok_state _ _ _ _ _ _ heqA).1
      split at h
      · simp at h
      · split at h
        · simp at h
        · rename_i cards heqG
          split at h
          · simp at h
          · rename_i sid heqC
            split at h
            · simp at h
            · simp only [Except.ok.injEq] at h
              rw [← h]
              refine ⟨sid, cards, heqG, rfl, rfl, ?_, rfl⟩
              show s2.row.error = s0.row.error
              rw [hst]
              exact rfl

/-- quizBody_err_state: when the quiz body throws, the job row's error
and resultRef columns are still at their initial values at the catch
boundary. -/
theorem quizBody_err_state (job : QuizJob) (env : QuizEnv)
    (s0 : ProcState QuestionRecord) (e : JsError)
    (s : ProcState QuestionRecord)
    (h : quizBody job env s0 = .error (e, s)) :
    s.row.resultRef = s0.row.resultRef ∧ s.row.error = s0.row.error := by
  unfold quizBody at h
  split at h
  · simp only [Except.error.injEq, Prod.mk.injEq] at h
    rw [← h.2]
    exact ⟨rfl, rfl⟩
  · dsimp only at h
    split at h
    · rename_i p heqA
      obtain ⟨e', s'⟩ := p
      simp only [Except.error.injEq, Prod.mk.injEq] at h
      rw [← h.2]
      have hst := (acquireText_err_state _ _ _ _ _ _ heqA).1
      rw [hst]
      exact ⟨rfl, rfl⟩
    · rename_i txt s2 heqA
      have hst := (acquireText_ok_state _ _ _ _ _ _ heqA).1
      have hr : s2.row.resultRef = s0.row.resultRef ∧
          s2.row.error = s0.row.error := by
        rw [hst]
        exact ⟨rfl, rfl⟩
      split at h
      · simp only [Except.error.injEq, Prod.mk.injEq] at h
        rw [← h.2]
        exact hr
      · split at h
        · simp only [Except.error.injEq, Prod.mk.injEq] at h
          rw [← h.2]
          exact hr
        · split at h
          · simp only [Except.error.injEq, Prod.mk.injEq] at h
            rw [← h.2]
            exact hr
          · split at h
            · simp only [Except.error.injEq, Prod.mk.injEq] at h
              rw [← h.2]
              exact hr
            · simp at h

/-- quizBody_ok_state: a successful quiz body run ends with status
DONE, the created quiz's id in resultRef, the error column untouched,
and an artifact whose children are the generated questions in order
with 0-based order indices. -/
theorem quizBody_ok_state (job : QuizJob) (env : QuizEnv)
    (s0 : ProcState QuestionRecord) (s : ProcState QuestionRecord)
    (h : quizBody job env s0 = .ok s) :
    ∃ qid payload, env.generate = .ok payload ∧
      s.row.status = "DONE" ∧ s.row.resultRef = some qid ∧
      s.row.error = s0.row.error ∧
      s.artifact = some (qid, payload.questions.enum.map (fun iq =>
        questionRecordOf iq.1 iq.2)) := by
  unfold quizBody at h
  split at h
  · simp at h
  · dsimp only at h
    split at h
    · simp at h
    · rename_i txt s2 heqA
      have hst := (acquireText_ok_state _ _ _ _ _ _ heqA).1
      split at h
      · simp at h
      · split at h
        · simp at h
        · rename_i payload heqG
          split at h
          · simp at h
          · rename_i qid heqC
            split at h
            · simp at h
            · simp only [Except.ok.injEq] at h
              rw [← h]
              refine ⟨qid, payload, heqG, rfl, rfl, ?_, rfl⟩
              show s2.row.error = s0.row.error
              rw [hst]
              exact rfl

/-- cond_false_of_len: text of length at least 50 passes the
minimum-content check. -/
theorem cond_false_of_len (t : String) (h : 50 ≤ t.length) :
    (t.isEmpty || decide (t.length < 50)) = false := by
  have h1 : t.isEmpty = false := by
    cases he : t.isEmpty
    · rfl
    · have ht : t = "" := (String.isEmpty_iff t).mp he
      rw [ht] at h
      exact absurd h (by decide)
  simp [h1, Nat.not_lt.mpr h]

/-- failWrite_trace: the catch handler appends exactly one updFailed
invocation to the trace, whether or not the write succeeds. -/
theorem failWrite_trace {χ : Type} (upd : Nat → Except JsError Unit)
    (s : ProcState χ) (e : JsError) :
    (failWrite upd s e).trace = s.trace ++ [Ev.updFailed] := by
  unfold failWrite
  split
  · rfl
  · rfl

/-- processFlash_shortInline: with no (truthy) file reference and
inline text that is empty, absent or shorter than 50 characters, the
flashcard processor invokes neither strategy and marks the job FAILED
with the minimum-length message, leaving resultRef untouched. -/
theorem processFlash_shortInline (job : FlashJob) (env : FlashEnv)
    (s0 : ProcState CardRecord)
    (hu : truthyS job.fileUrl = false)
    (hl : (jsTextOf job.text).isEmpty = true ∨ (jsTextOf job.text).length < 50)
    (hP : (executeWithRetry env.updProcessing 3).result = .ok ())
    (hF : (executeWithRetry env.updFailed 3).result = .ok ()) :
    processFlashcardJob job env s0 =
      ⟨⟨"FAILED",
        some "Content too short to generate flashcards (minimum 50 characters)",
        s0.row.resultRef⟩,
       s0.artifact, s0.trace ++ [Ev.updProcessing, Ev.updFailed]⟩ := by
  have hcond : ((jsTextOf job.text).isEmpty
      || decide ((jsTextOf job.text).length < 50)) = true := by
    rcases hl with hl | hl <;> simp [hl]
  have hne : ("Content too short to generate flashcards (minimum 50 characters)"
      : String).isEmpty = false := by decide
  cases hfu : job.fileUrl with
  | none =>
    simp [processFlashcardJob, flashBody, acquireText, failWrite, addEv,
      hP, hF, hfu, hcond, messageOr, mkErr, hne]
  | some u =>
    have hue : u.isEmpty = true := by simpa [truthyS, hfu] using hu
    simp [processFlashcardJob, flashBody, acquireText, failWrite, addEv,
      hP, hF, hfu, hue, hcond, messageOr, mkErr, hne]

/-- processQuiz_shortInline: the quiz processor's behaviour on empty,
absent or sub-50-character inline text, mirroring the flashcard case
but with the quiz wording. -/
theorem processQuiz_shortInline (job : QuizJob) (env : QuizEnv)
    (s0 : ProcState QuestionRecord)
    (hu : truthyS job.fileUrl = false)
    (hl : (jsTextOf job.text).isEmpty = true ∨ (jsTextOf job.text).length < 50)
    (hP : (executeWithRetry env.updProcessing 3).result = .ok ())
    (hF : (executeWithRetry env.updFailed 3).result = .ok ()) :
    processQuizJob job env s0 =
      ⟨⟨"FAILED",
        some "Content too short to generate quiz (minimum 50 characters)",
        s0.row.resultRef⟩,
       s0.artifact, s0.trace ++ [Ev.updProcessing, Ev.updFailed]⟩ := by
  have hcond : ((jsTextOf job.text).isEmpty
      || decide ((jsTextOf job.text).length < 50)) = true := by
    rcases hl with hl | hl <;> simp [hl]
  have hne : ("Content too short to generate quiz (minimum 50 characters)"
      : String).isEmpty = false := by decide
  cases hfu : job.fileUrl with
  | none =>
    simp [processQuizJob, quizBody, acquireText, failWrite, addEv,
      hP, hF, hfu, hcond, messageOr, mkErr, hne]
  | some u =>
    have hue : u.isEmpty = true := by simpa [truthyS, hfu] using hu
    simp [processQuizJob, quizBody, acquireText, failWrite, addEv,
      hP, hF, hfu, hue, hcond, messageOr, mkErr, hne]

/-- processFlash_invalidUrl: a truthy file reference rejected by
isValidUrl makes the flashcard processor fail the job before any
extraction attempt, with a message naming the invalid URL. -/
theorem processFlash_invalidUrl (job : FlashJob) (env : FlashEnv)
    (s0 : ProcState CardRecord) (u : String)
    (hfu : job.fileUrl = some u) (hune : u ≠ "")
    (hv : isValidUrl u = false)
    (hP : (executeWithRetry env.updProcessing 3).result = .ok ())
    (hF : (executeWithRetry env.updFailed 3).result = .ok ()) :
    processFlashcardJob job env s0 =
      ⟨⟨"FAILED",
        some ("Invalid file URL: " ++ u ++
          ". Must be http, https, or r2 protocol."),
        s0.row.resultRef⟩,
       s0.artifact, s0.trace ++ [Ev.updProcessing, Ev.updFailed]⟩ := by
  have hue : u.isEmpty = false := isEmpty_false_of_ne u hune
  have hmsg : ("Invalid file URL: " ++ u ++
      ". Must be http, https, or r2 protocol.").isEmpty = false :=
    isEmpty_false_of_ne _ (append_ne_empty _ _
      (append_ne_empty _ _ (by decide)))
  simp [processFlashcardJob, flashBody, acquireText, failWrite, addEv,
    hP, hF, hfu, hue, hv, messageOr, mkErr, hmsg]

/-- processFlash_shortExtract: a valid file reference whose extracted
text is shorter than 50 characters makes the flashcard processor fail
the job with the minimum-length message after the extraction call. -/
theorem processFlash_shortExtract (job : FlashJob) (env : FlashEnv)
    (s0 : ProcState CardRecord) (u t : String)
    (hfu : job.fileUrl = some u) (hune : u ≠ "")
    (hv : isValidUrl u = true) (hex : env.extract = .ok t)
    (hl : t.isEmpty = true ∨ t.length < 50)
    (hP : (executeWithRetry env.updProcessing 3).result = .ok ())
    (hF : (executeWithRetry env.updFailed 3).result = .ok ()) :
    processFlashcardJob job env s0 =
      ⟨⟨"FAILED",
        some "Content too short to generate flashcards (minimum 50 characters)",
        s0.row.resultRef⟩,
       s0.artifact,
       s0.trace ++ [Ev.updProcessing, Ev.extractCall, Ev.updFailed]⟩ := by
  have hue : u.isEmpty = false := isEmpty_false_of_ne u hune
  have hcond : (t.isEmpty || decide (t.length < 50)) = true := by
    rcases hl with hl | hl <;> simp [hl]
  have hne : ("Content too short to generate flashcards (minimum 50 characters)"
      : String).isEmpty = false := by decide
  simp [processFlashcardJob, flashBody, acquireText, failWrite, addEv,
    hP, hF, hfu, hue, hv, hex, hcond, messageOr, mkErr, hne]

/-- processQuiz_shortExtract: the quiz-processor analogue of
processFlash_shortExtract. -/
theorem processQuiz_shortExtract (job : QuizJob) (env : QuizEnv)
    (s0 : ProcState QuestionRecord) (u t : String)
    (hfu : job.fileUrl = some u) (hune : u ≠ "")
    (hv : isValidUrl u = true) (hex : env.extract = .ok t)
    (hl : t.isEmpty = true ∨ t.length < 50)
    (hP : (executeWithRetry env.updProcessing 3).result = .ok ())
    (hF : (executeWithRetry env.updFailed 3).result = .ok ()) :
    processQuizJob job env s0 =
      ⟨⟨"FAILED",
        some "Content too short to generate quiz (minimum 50 characters)",
        s0.row.resultRef⟩,
       s0.artifact,
       s0.trace ++ [Ev.updProcessing, Ev.extractCall, Ev.updFailed]⟩ := by
  have hue : u.isEmpty = false := isEmpty_false_of_ne u hune
  have hcond : (t.isEmpty || decide (t.length < 50)) = true := by
    rcases hl with hl | hl <;> simp [hl]
  have hne : ("Content too short to generate quiz (minimum 50 characters)"
      : String).isEmpty = false := by decide
  simp [processQuizJob, quizBody, acquireText, failWrite, addEv,
    hP, hF, hfu, hue, hv, hex, hcond, messageOr, mkErr, hne]

/-- processFlash_success: with truthy inline text of length at least 50
and all external operations succeeding, the flashcard processor marks
the job DONE, stores the set id in resultRef, leaves the error column
untouched, and persists the generated cards with 0-based order
indices. -/
theorem processFlash_success (job : FlashJob) (env : FlashEnv)
    (s0 : ProcState CardRecord) (cards : List Card) (sid : Nat)
    (hu : truthyS job.fileUrl = false)
    (hlen : 50 ≤ (jsTextOf job.text).length)
    (hP : (executeWithRetry env.updProcessing 3).result = .ok ())
    (hg : env.generate = .ok cards)
    (hc : (executeWithRetry env.createSet 3).result = .ok sid)
    (hd : (executeWithRetry env.updDone 3).result = .ok ()) :
    processFlashcardJob job env s0 =
      ⟨⟨"DONE", s0.row.error, some sid⟩,
       some (sid, cards.enum.map (fun ic =>
         CardRecord.mk ic.2.front ic.2.back ic.1)),
       s0.trace ++ [Ev.updProcessing, Ev.generateCards,
         Ev.createArtifact, Ev.updDone]⟩ := by
  have hcond := cond_false_of_len _ hlen
  cases hfu : job.fileUrl with
  | none =>
    simp [processFlashcardJob, flashBody, acquireText, addEv,
      hP, hfu, hcond, hg, hc, hd]
  | some u =>
    have hue : u.isEmpty = true := by simpa [truthyS, hfu] using hu
    simp [processFlashcardJob, flashBody, acquireText, addEv,
      hP, hfu, hue, hcond, hg, hc, hd]

/-- processQuiz_success: with truthy inline text of length at least 50
and all external operations succeeding, the quiz processor normalizes
the generation parameters, records them on the generation call, marks
the job DONE with the quiz id, and persists the generated questions
with 0-based order indices. -/
theorem processQuiz_success (job : QuizJob) (env : QuizEnv)
    (s0 : ProcState QuestionRecord) (payload : QuizPayload) (qid : Nat)
    (hu : truthyS job.fileUrl = false)
    (hlen : 50 ≤ (jsTextOf job.text).length)
    (hP : (executeWithRetry env.updProcessing 3).result = .ok ())
    (hg : env.generate = .ok payload)
    (hc : (executeWithRetry env.createQuiz 3).result = .ok qid)
    (hd : (executeWithRetry env.updDone 3).result = .ok ()) :
    processQuizJob job env s0 =
      ⟨⟨"DONE", s0.row.error, some qid⟩,
       some (qid, payload.questions.enum.map (fun iq =>
         questionRecordOf iq.1 iq.2)),
       s0.trace ++ [Ev.updProcessing,
         Ev.generateQuiz (quizNumQuestions job.numberOfQuestions)
           (quizDifficulty job.difficulty)
           (quizQuestionTypes job.questionTypes),
         Ev.createArtifact, Ev.updDone]⟩ := by
  have hcond := cond_false_of_len _ hlen
  cases hfu : job.fileUrl with
  | none =>
    simp [processQuizJob, quizBody, acquireText, addEv,
      hP, hfu, hcond, hg, hc, hd]
  | some u =>
    have hue : u.isEmpty = true := by simpa [truthyS, hfu] using hu
    simp [processQuizJob, quizBody, acquireText, addEv,
      hP, hfu, hue, hcond, hg, hc, hd]

/-- acquireText_falsy: with a falsy file reference, text acquisition
returns the inline text (or the initial empty string) and leaves the
state unchanged. -/
theorem acquireText_falsy {χ : Type} (fu tx : Option String)
    (ex : Except JsError String) (s : ProcState χ)
    (hu : truthyS fu = false) :
    acquireText fu tx ex s = .ok (jsTextOf tx, s) := by
  cases hfu : fu with
  | none => rfl
  | some u =>
    have hue : u.isEmpty = true := by simpa [truthyS, hfu] using hu
    simp [acquireText, hue]

/-- processFlash_reaches_generate: inline text of length at least 50
passes the minimum-content check, so the Generation Strategy is
invoked whatever the later operations do. -/
theorem processFlash_reaches_generate (job : FlashJob) (env : FlashEnv)
    (s0 : ProcState CardRecord)
    (hu : truthyS job.fileUrl = false)
    (hlen : 50 ≤ (jsTextOf job.text).length)
    (hP : (executeWithRetry env.updProcessing 3).result = .ok ()) :
    Ev.generateCards ∈ (processFlashcardJob job env s0).trace := by
  have hcond := cond_false_of_len _ hlen
  have hacq := fun s => acquireText_falsy (χ := CardRecord)
    job.fileUrl job.text env.extract s hu
  rcases hge : env.generate with e | cards
  · simp [processFlashcardJob, flashBody, addEv, failWrite_trace,
      hP, hacq, hcond, hge]
  · rcases hcs : (executeWithRetry env.createSet 3).result with oe | sid
    · simp [processFlashcardJob, flashBody, addEv, failWrite_trace,
        hP, hacq, hcond, hge, hcs]
    · rcases hcd : (executeWithRetry env.updDone 3).result with oe2 | u2
      · simp [processFlashcardJob, flashBody, addEv, failWrite_trace,
          hP, hacq, hcond, hge, hcs, hcd]
      · simp [processFlashcardJob, flashBody, addEv, failWrite_trace,
          hP, hacq, hcond, hge, hcs, hcd]

/-- processQuiz_reaches_generate: the quiz analogue: inline text of
length at least 50 passes the check and the Generation Strategy is
invoked with the normalized parameters, whatever the later operations
do. -/
theorem processQuiz_reaches_generate (job : QuizJob) (env : QuizEnv)
    (s0 : ProcState QuestionRecord)
    (hu : truthyS job.fileUrl = false)
    (hlen : 50 ≤ (jsTextOf job.text).length)
    (hP : (executeWithRetry env.updProcessing 3).result = .ok ()) :
    Ev.generateQuiz (quizNumQuestions job.numberOfQuestions)
      (quizDifficulty job.difficulty)
      (quizQuestionTypes job.questionTypes)
      ∈ (processQuizJob job env s0).trace := by
  have hcond := cond_false_of_len _ hlen
  have hacq := fun s => acquireText_falsy (χ := QuestionRecord)
    job.fileUrl job.text env.extract s hu
  rcases hge : env.generate with e | payload
  · simp [processQuizJob, quizBody, addEv, failWrite_trace,
      hP, hacq, hcond, hge]
  · rcases hcs : (executeWithRetry env.createQuiz 3).result with oe | qid
    · simp [processQuizJob, quizBody, addEv, failWrite_trace,
        hP, hacq, hcond, hge, hcs]
    · rcases hcd : (executeWithRetry env.updDone 3).result with oe2 | u2
      · simp [processQuizJob, quizBody, addEv, failWrite_trace,
          hP, hacq, hcond, hge, hcs, hcd]
      · simp [processQuizJob, quizBody, addEv, failWrite_trace,
          hP, hacq, hcond, hge, hcs, hcd]

/-- jsTextOf_isEmpty_of_falsy: a falsy inline text field yields empty
acquired text. -/
theorem jsTextOf_isEmpty_of_falsy (t : Option String)
    (h : truthyS t = false) : (jsTextOf t).isEmpty = true := by
  cases t with
  | none => decide
  | some s => simpa [truthyS, jsTextOf] using h

/-- C6: a poll tick that fires while a previous cycle is still in
progress (isPolling set) or after shutdown has been requested is a
no-op: the worker state is returned unchanged, so the dropped tick
causes no database fetch and no additional job claims, and nothing is
queued for later. -/
theorem c6_no_overlap (eff : WorkerState → WorkerState) (s : WorkerState)
    (h : s.isPolling = true ∨ s.shutdownRequested = true) :
    safePollJobs eff s = s ∧
    (safePollJobs eff s).fetches = s.fetches ∧
    (safePollJobs eff s).claims = s.claims := by
  have hb : (s.isPolling || s.shutdownRequested) = true := by
    rcases h with h | h <;> simp [h]
  refine ⟨?_, ?_, ?_⟩ <;> simp [safePollJobs, hb]

/-- C6 witness: a tick arriving with isPolling set leaves the state
with zero fetches and zero claims. -/
theorem c6_no_overlap_witness :
    safePollJobs pollEffDemo ⟨true, false, 0, 0⟩ = ⟨true, false, 0, 0⟩ ∧
    (safePollJobs pollEffDemo ⟨true, false, 0, 0⟩).fetches = 0 ∧
    (safePollJobs pollEffDemo ⟨true, false, 0, 0⟩).claims = 0 :=
  c6_no_overlap pollEffDemo ⟨true, false, 0, 0⟩ (Or.inl rfl)

/-- C8: isValidUrl accepts "https://x/y.pdf" and "r2://bucket/key",
rejects "ftp://x" and the unparseable "not-a-url"; in general it
accepts exactly the strings parsing as URLs with protocol http:,
https: or r2:; and a job carrying a truthy file reference rejected by
the check ends FAILED with a message naming the invalid URL, with no
extraction attempt. -/
theorem c8_url_validation :
    isValidUrl "https://x/y.pdf" = true ∧
    isValidUrl "r2://bucket/key" = true ∧
    isValidUrl "ftp://x" = false ∧
    isValidUrl "not-a-url" = false ∧
    (∀ s : String, isValidUrl s = true ↔
      ∃ p, jsURLProtocol s = some p ∧
        (p = "http:" ∨ p = "https:" ∨ p = "r2:")) ∧
    (∀ (job : FlashJob) (env : FlashEnv) (s0 : ProcState CardRecord)
      (u : String), s0.trace = [] → job.fileUrl = some u → u ≠ "" →
      isValidUrl u = false →
      (executeWithRetry env.updProcessing 3).result = .ok () →
      (executeWithRetry env.updFailed 3).result = .ok () →
      (processFlashcardJob job env s0).row.status = "FAILED" ∧
      (processFlashcardJob job env s0).row.error =
        some ("Invalid file URL: " ++ u ++
          ". Must be http, https, or r2 protocol.") ∧
      Ev.extractCall ∉ (processFlashcardJob job env s0).trace) := by
  refine ⟨by decide, by decide, by decide, by decide, ?_, ?_⟩
  · intro s
    unfold isValidUrl
    cases hp : jsURLProtocol s with
    | none => simp
    | some p =>
      simp only [hp]
      constructor
      · intro hb
        rcases (by simpa using hb : (p = "http:" ∨ p = "https:") ∨
          p = "r2:") with (h | h) | h
        · exact ⟨p, rfl, Or.inl h⟩
        · exact ⟨p, rfl, Or.inr (Or.inl h)⟩
        · exact ⟨p, rfl, Or.inr (Or.inr h)⟩
      · rintro ⟨q, hq, hd⟩
        obtain rfl : p = q := by simpa using hq
        rcases hd with h | h | h <;> simp [h]
  · intro job env s0 u h0 hfu hune hv hP hF
    have hrun := processFlash_invalidUrl job env s0 u hfu hune hv hP hF
    rw [hrun]
    refine ⟨rfl, rfl, ?_⟩
    simp [h0]

/-- C8 witness: the job with file reference "not-a-url" ends FAILED
with a message naming it, and extraction is never attempted. -/
theorem c8_url_validation_witness :
    (processFlashcardJob invalidUrlJob (flashEnvAllOk (Except.ok []))
      initState).row.status = "FAILED" ∧
    (processFlashcardJob invalidUrlJob (flashEnvAllOk (Except.ok []))
      initState).row.error =
      some ("Invalid file URL: " ++ "not-a-url" ++
        ". Must be http, https, or r2 protocol.") ∧
    Ev.extractCall ∉ (processFlashcardJob invalidUrlJob
      (flashEnvAllOk (Except.ok [])) initState).trace :=
  c8_url_validation.2.2.2.2.2 invalidUrlJob (flashEnvAllOk (Except.ok []))
    initState "not-a-url" rfl rfl (by decide) (by decide) rfl rfl

/-- C9: a job in which both the file-reference field and the inline
text field are absent or empty invokes neither the Extraction nor the
Generation Strategy and is marked FAILED with the same minimum-length
('Content too short') message used for short text, not an
invalid-input error. -/
theorem c9_missing_input :
    (∀ (job : FlashJob) (env : FlashEnv) (s0 : ProcState CardRecord),
      s0.trace = [] → truthyS job.fileUrl = false →
      truthyS job.text = false →
      (executeWithRetry env.updProcessing 3).result = .ok () →
      (executeWithRetry env.updFailed 3).result = .ok () →
      (processFlashcardJob job env s0).row.status = "FAILED" ∧
      (processFlashcardJob job env s0).row.error =
        some "Content too short to generate flashcards (minimum 50 characters)" ∧
      Ev.extractCall ∉ (processFlashcardJob job env s0).trace ∧
      Ev.generateCards ∉ (processFlashcardJob job env s0).trace) ∧
    (∀ (job : QuizJob) (env : QuizEnv) (s0 : ProcState QuestionRecord),
      s0.trace = [] → truthyS job.fileUrl = false →
      truthyS job.text = false →
      (executeWithRetry env.updProcessing 3).result = .ok () →
      (executeWithRetry env.updFailed 3).result = .ok () →
      (processQuizJob job env s0).row.status = "FAILED" ∧
      (processQuizJob job env s0).row.error =
        some "Content too short to generate quiz (minimum 50 characters)" ∧
      Ev.extractCall ∉ (processQuizJob job env s0).trace ∧
      (∀ a b c, Ev.generateQuiz a b c ∉ (processQuizJob job env s0).trace)) := by
  constructor
  · intro job env s0 h0 hu htx hP hF
    have hrun := processFlash_shortInline job env s0 hu
      (Or.inl (jsTextOf_isEmpty_of_falsy job.text htx)) hP hF
    rw [hrun]
    refine ⟨rfl, rfl, ?_, ?_⟩ <;> simp [h0]
  · intro job env s0 h0 hu htx hP hF
    have hrun := processQuiz_shortInline job env s0 hu
      (Or.inl (jsTextOf_isEmpty_of_falsy job.text htx)) hP hF
    rw [hrun]
    refine ⟨rfl, rfl, ?_, ?_⟩
    · simp [h0]
    · intro a b c
      simp [h0]

/-- C9 witness: a flashcard job with neither input ends FAILED with
the minimum-length message and no strategy invocation. -/
theorem c9_missing_input_witness :
    (processFlashcardJob (flashJobText none) (flashEnvAllOk (Except.ok []))
      initState).row.status = "FAILED" ∧
    (processFlashcardJob (flashJobText none) (flashEnvAllOk (Except.ok []))
      initState).row.error =
      some "Content too short to generate flashcards (minimum 50 characters)" ∧
    Ev.extractCall ∉ (processFlashcardJob (flashJobText none)
      (flashEnvAllOk (Except.ok [])) initState).trace ∧
    Ev.generateCards ∉ (processFlashcardJob (flashJobText none)
      (flashEnvAllOk (Except.ok [])) initState).trace :=
  c9_missing_input.1 (flashJobText none) (flashEnvAllOk (Except.ok []))
    initState rfl rfl rfl rfl rfl

/-- C7: acquired text (inline or extracted) of length under 50 makes
the job end FAILED with a message mentioning the 50-character minimum
and the Generation Strategy is not invoked; text of length 50 or more
passes the check and generation is invoked. -/
theorem c7_min_length_gate :
    (∀ (job : FlashJob) (env : FlashEnv) (s0 : ProcState CardRecord)
      (t : String), s0.trace = [] → truthyS job.fileUrl = false →
      job.text = some t → t.length < 50 →
      (executeWithRetry env.updProcessing 3).result = .ok () →
      (executeWithRetry env.updFailed 3).result = .ok () →
      (processFlashcardJob job env s0).row.status = "FAILED" ∧
      (processFlashcardJob job env s0).row.error =
        some "Content too short to generate flashcards (minimum 50 characters)" ∧
      strIncludes
        "Content too short to generate flashcards (minimum 50 characters)"
        "minimum 50 characters" = true ∧
      Ev.generateCards ∉ (processFlashcardJob job env s0).trace) ∧
    (∀ (job : FlashJob) (env : FlashEnv) (s0 : ProcState CardRecord)
      (u t : String), s0.trace = [] → job.fileUrl = some u → u ≠ "" →
      isValidUrl u = true → env.extract = .ok t → t.length < 50 →
      (executeWithRetry env.updProcessing 3).result = .ok () →
      (executeWithRetry env.updFailed 3).result = .ok () →
      (processFlashcardJob job env s0).row.status = "FAILED" ∧
      (processFlashcardJob job env s0).row.error =
        some "Content too short to generate flashcards (minimum 50 characters)" ∧
      strIncludes
        "Content too short to generate flashcards (minimum 50 characters)"
        "minimum 50 characters" = true ∧
      Ev.generateCards ∉ (processFlashcardJob job env s0).trace) ∧
    (∀ (job : QuizJob) (env : QuizEnv) (s0 : ProcState QuestionRecord)
      (t : String), s0.trace = [] → truthyS job.fileUrl = false →
      job.text = some t → t.length < 50 →
      (executeWithRetry env.updProcessing 3).result = .ok () →
      (executeWithRetry env.updFailed 3).result = .ok () →
      (processQuizJob job env s0).row.status = "FAILED" ∧
      (processQuizJob job env s0).row.error =
        some "Content too short to generate quiz (minimum 50 characters)" ∧
      strIncludes
        "Content too short to generate quiz (minimum 50 characters)"
        "minimum 50 characters" = true ∧
      (∀ a b c, Ev.generateQuiz a b c ∉ (processQuizJob job env s0).trace)) ∧
    (∀ (job : QuizJob) (env : QuizEnv) (s0 : ProcState QuestionRecord)
      (u t : String), s0.trace = [] → job.fileUrl = some u → u ≠ "" →
      isValidUrl u = true → env.extract = .ok t → t.length < 50 →
      (executeWithRetry env.updProcessing 3).result = .ok () →
      (executeWithRetry env.updFailed 3).result = .ok () →
      (processQuizJob job env s0).row.status = "FAILED" ∧
      (processQuizJob job env s0).row.error =
        some "Content too short to generate quiz (minimum 50 characters)" ∧
      strIncludes
        "Content too short to generate quiz (minimum 50 characters)"
        "minimum 50 characters" = true ∧
      (∀ a b c, Ev.generateQuiz a b c ∉ (processQuizJob job env s0).trace)) ∧
    (∀ (job : FlashJob) (env : FlashEnv) (s0 : ProcState CardRecord)
      (t : String), truthyS job.fileUrl = false → job.text = some t →
      50 ≤ t.length →
      (executeWithRetry env.updProcessing 3).result = .ok () →
      Ev.generateCards ∈ (processFlashcardJob job env s0).trace) ∧
    (∀ (job : QuizJob) (env : QuizEnv) (s0 : ProcState QuestionRecord)
      (t : String), truthyS job.fileUrl = false → job.text = some t →
      50 ≤ t.length →
      (executeWithRetry env.updProcessing 3).result = .ok () →
      Ev.generateQuiz (quizNumQuestions job.numberOfQuestions)
        (quizDifficulty job.difficulty)
        (quizQuestionTypes job.questionTypes)
        ∈ (processQuizJob job env s0).trace) := by
  refine ⟨?_, ?_, ?_, ?_, ?_, ?_⟩
  · intro job env s0 t h0 hu htx hlen hP hF
    have hrun := processFlash_shortInline job env s0 hu
      (by rw [htx]; exact Or.inr hlen) hP hF
    rw [hrun]
    refine ⟨rfl, rfl, by decide, ?_⟩
    simp [h0]
  · intro job env s0 u t h0 hfu hune hv hex hlen hP hF
    have hrun := processFlash_shortExtract job env s0 u t hfu hune hv hex
      (Or.inr hlen) hP hF
    rw [hrun]
    refine ⟨rfl, rfl, by decide, ?_⟩
    simp [h0]
  · intro job env s0 t h0 hu htx hlen hP hF
    have hrun := processQuiz_shortInline job env s0 hu
      (by rw [htx]; exact Or.inr hlen) hP hF
    rw [hrun]
    refine ⟨rfl, rfl, by decide, ?_⟩
    intro a b c
    simp [h0]
  · intro job env s0 u t h0 hfu hune hv hex hlen hP hF
    have hrun := processQuiz_shortExtract job env s0 u t hfu hune hv hex
      (Or.inr hlen) hP hF
    rw [hrun]
    refine ⟨rfl, rfl, by decide, ?_⟩
    intro a b c
    simp [h0]
  · intro job env s0 t hu htx hlen hP
    exact processFlash_reaches_generate job env s0 hu
      (by rw [htx]; exact hlen) hP
  · intro job env s0 t hu htx hlen hP
    exact processQuiz_reaches_generate job env s0 hu
      (by rw [htx]; exact hlen) hP

/-- C7 witness: a flashcard job with 30 characters of inline text ends
FAILED with the minimum-length message and no generation call. -/
theorem c7_min_length_gate_witness :
    (processFlashcardJob (flashJobText (some shortText))
      (flashEnvAllOk (Except.ok [])) initState).row.status = "FAILED" ∧
    (processFlashcardJob (flashJobText (some shortText))
      (flashEnvAllOk (Except.ok [])) initState).row.error =
      some "Content too short to generate flashcards (minimum 50 characters)" ∧
    strIncludes
      "Content too short to generate flashcards (minimum 50 characters)"
      "minimum 50 characters" = true ∧
    Ev.generateCards ∉ (processFlashcardJob (flashJobText (some shortText))
      (flashEnvAllOk (Except.ok [])) initState).trace :=
  c7_min_length_gate.1 (flashJobText (some shortText))
    (flashEnvAllOk (Except.ok [])) initState shortText rfl rfl rfl
    (by decide) rfl rfl

/-- C3: any exception thrown during a job's processing (claim, text
acquisition, generation or persistence) is caught at the processor's
single boundary, which writes status FAILED with the exception's
message ('Unknown error' when the message is empty or undefined) — a
non-empty string — while the job row's result reference stays null.
The processors are total functions of the embedding, so no exception
ever propagates to the poll loop. -/
theorem c3_failure_boundary :
    (∀ (job : FlashJob) (env : FlashEnv) (s0 : ProcState CardRecord)
      (e : JsError) (s : ProcState CardRecord),
      s0.row.resultRef = none →
      flashBody job env s0 = .error (e, s) →
      (executeWithRetry env.updFailed 3).result = .ok () →
      (processFlashcardJob job env s0).row.status = "FAILED" ∧
      (processFlashcardJob job env s0).row.error =
        some (messageOr e "Unknown error") ∧
      messageOr e "Unknown error" ≠ "" ∧
      (processFlashcardJob job env s0).row.resultRef = none) ∧
    (∀ (job : QuizJob) (env : QuizEnv) (s0 : ProcState QuestionRecord)
      (e : JsError) (s : ProcState QuestionRecord),
      s0.row.resultRef = none →
      quizBody job env s0 = .error (e, s) →
      (executeWithRetry env.updFailed 3).result = .ok () →
      (processQuizJob job env s0).row.status = "FAILED" ∧
      (processQuizJob job env s0).row.error =
        some (messageOr e "Unknown error") ∧
      messageOr e "Unknown error" ≠ "" ∧
      (processQuizJob job env s0).row.resultRef = none) := by
  constructor
  · intro job env s0 e s h0 hb hF
    have hpre := flashBody_err_state job env s0 e s hb
    refine ⟨?_, ?_, messageOr_ne_empty e, ?_⟩
    · simp [processFlashcardJob, hb, failWrite, addEv, hF]
    · simp [processFlashcardJob, hb, failWrite, addEv, hF]
    · simp [processFlashcardJob, hb, failWrite, addEv, hF, hpre.1, h0]
  · intro job env s0 e s h0 hb hF
    have hpre := quizBody_err_state job env s0 e s hb
    refine ⟨?_, ?_, messageOr_ne_empty e, ?_⟩
    · simp [processQuizJob, hb, failWrite, addEv, hF]
    · simp [processQuizJob, hb, failWrite, addEv, hF]
    · simp [processQuizJob, hb, failWrite, addEv, hF, hpre.1, h0]

/-- C3 witness: the no-input flashcard job throws the minimum-length
error, and the boundary writes FAILED with that message, resultRef
staying null. -/
theorem c3_failure_boundary_witness :
    (processFlashcardJob (flashJobText none) (flashEnvAllOk (Except.ok []))
      initState).row.status = "FAILED" ∧
    (processFlashcardJob (flashJobText none) (flashEnvAllOk (Except.ok []))
      initState).row.error =
      some (messageOr (mkErr
        "Content too short to generate flashcards (minimum 50 characters)")
        "Unknown error") ∧
    messageOr (mkErr
      "Content too short to generate flashcards (minimum 50 characters)")
      "Unknown error" ≠ "" ∧
    (processFlashcardJob (flashJobText none) (flashEnvAllOk (Except.ok []))
      initState).row.resultRef = none :=
  c3_failure_boundary.1 (flashJobText none) (flashEnvAllOk (Except.ok []))
    initState
    (mkErr "Content too short to generate flashcards (minimum 50 characters)")
    ⟨⟨"PROCESSING", none, none⟩, none, [Ev.updProcessing]⟩ rfl rfl rfl

/-- C4: a job that completes successfully ends with status DONE, a
non-null result reference, an untouched error column, and an artifact
whose child count equals the Generation Strategy's returned item
count, with each child's order field equal to its 0-based index in the
returned list. -/
theorem c4_success_artifact :
    (∀ (job : FlashJob) (env : FlashEnv) (s0 s : ProcState CardRecord),
      flashBody job env s0 = .ok s →
      processFlashcardJob job env s0 = s ∧
      s.row.status = "DONE" ∧ s.row.error = s0.row.error ∧
      ∃ sid, s.row.resultRef = some sid ∧
        ∀ cards, env.generate = .ok cards →
          ∃ records, s.artifact = some (sid, records) ∧
            records.length = cards.length ∧
            ∀ i (h : i < records.length), records[i].order = i) ∧
    (∀ (job : QuizJob) (env : QuizEnv) (s0 s : ProcState QuestionRecord),
      quizBody job env s0 = .ok s →
      processQuizJob job env s0 = s ∧
      s.row.status = "DONE" ∧ s.row.error = s0.row.error ∧
      ∃ qid, s.row.resultRef = some qid ∧
        ∀ payload, env.generate = .ok payload →
          ∃ records, s.artifact = some (qid, records) ∧
            records.length = payload.questions.length ∧
            ∀ i (h : i < records.length), records[i].order = i) := by
  constructor
  · intro job env s0 s hb
    obtain ⟨sid, cards', hg', hstat, hres, herr, hart⟩ :=
      flashBody_ok_state job env s0 s hb
    refine ⟨by simp [processFlashcardJob, hb], hstat, herr, sid, hres, ?_⟩
    intro cards hg
    rw [hg] at hg'
    obtain rfl : cards = cards' := by simpa using hg'
    refine ⟨_, hart, by simp, ?_⟩
    intro i h
    have h2 : i < cards.enum.length := by simpa using h
    simp [List.getElem_map, List.getElem_enum]
  · intro job env s0 s hb
    obtain ⟨qid, payload', hg', hstat, hres, herr, hart⟩ :=
      quizBody_ok_state job env s0 s hb
    refine ⟨by simp [processQuizJob, hb], hstat, herr, qid, hres, ?_⟩
    intro payload hg
    rw [hg] at hg'
    obtain rfl : payload = payload' := by simpa using hg'
    refine ⟨_, hart, by simp, ?_⟩
    intro i h
    have h2 : i < payload.questions.enum.length := by simpa using h
    simp [List.getElem_map, List.getElem_enum, questionRecordOf]

/-- C4 witness: the successful demo flashcard run ends DONE with set
id 7 and both cards persisted in generation order. -/
theorem c4_success_artifact_witness :
    processFlashcardJob (flashJobText (some longText))
      (flashEnvAllOk (Except.ok demoCards)) initState = c4FinalState ∧
    c4FinalState.row.status = "DONE" ∧
    c4FinalState.row.error = initState.row.error ∧
    ∃ sid, c4FinalState.row.resultRef = some sid ∧
      ∀ cards, (flashEnvAllOk (Except.ok demoCards)).generate =
          .ok cards →
        ∃ records, c4FinalState.artifact = some (sid, records) ∧
          records.length = cards.length ∧
          ∀ i (h : i < records.length), records[i].order = i :=
  c4_success_artifact.1 (flashJobText (some longText))
    (flashEnvAllOk (Except.ok demoCards)) initState c4FinalState rfl

/-- C5 counterexample: a generation result with an empty card list
does lead to the job ending DONE — the demo run stores an empty
artifact and marks the job DONE, refuting the claim that an empty list
never reaches DONE. -/
theorem c5_generation_counterexample :
    (flashEnvAllOk (Except.ok [])).generate = Except.ok ([] : List Card) ∧
    (processFlashcardJob (flashJobText (some longText))
      (flashEnvAllOk (Except.ok [])) initState).row.status = "DONE" ∧
    (processFlashcardJob (flashJobText (some longText))
      (flashEnvAllOk (Except.ok [])) initState).artifact = some (7, []) :=
  ⟨rfl, rfl, rfl⟩

/-- C5 amended: the processors perform no emptiness validation of the
generation result: an empty card list (or a quiz payload with an empty
question list) proceeds to persistence and the job ends DONE with an
artifact having zero children; the job fails with a generation error
exactly when the Generation Strategy call itself throws. -/
theorem c5_no_empty_validation :
    (∀ (job : FlashJob) (env : FlashEnv) (s0 : ProcState CardRecord)
      (sid : Nat), truthyS job.fileUrl = false →
      50 ≤ (jsTextOf job.text).length →
      (executeWithRetry env.updProcessing 3).result = .ok () →
      env.generate = .ok [] →
      (executeWithRetry env.createSet 3).result = .ok sid →
      (executeWithRetry env.updDone 3).result = .ok () →
      (processFlashcardJob job env s0).row.status = "DONE" ∧
      (processFlashcardJob job env s0).artifact = some (sid, [])) ∧
    (∀ (job : QuizJob) (env : QuizEnv) (s0 : ProcState QuestionRecord)
      (qid : Nat), truthyS job.fileUrl = false →
      50 ≤ (jsTextOf job.text).length →
      (executeWithRetry env.updProcessing 3).result = .ok () →
      env.generate = .ok ⟨[]⟩ →
      (executeWithRetry env.createQuiz 3).result = .ok qid →
      (executeWithRetry env.updDone 3).result = .ok () →
      (processQuizJob job env s0).row.status = "DONE" ∧
      (processQuizJob job env s0).artifact = some (qid, [])) ∧
    (∀ (job : FlashJob) (env : FlashEnv) (s0 : ProcState CardRecord)
      (e : JsError), truthyS job.fileUrl = false →
      50 ≤ (jsTextOf job.text).length →
      (executeWithRetry env.updProcessing 3).result = .ok () →
      env.generate = .error e →
      (executeWithRetry env.updFailed 3).result = .ok () →
      (processFlashcardJob job env s0).row.status = "FAILED") ∧
    (∀ (job : QuizJob) (env : QuizEnv) (s0 : ProcState QuestionRecord)
      (e : JsError), truthyS job.fileUrl = false →
      50 ≤ (jsTextOf job.text).length →
      (executeWithRetry env.updProcessing 3).result = .ok () →
      env.generate = .error e →
      (executeWithRetry env.updFailed 3).result = .ok () →
      (processQuizJob job env s0).row.status = "FAILED") := by
  refine ⟨?_, ?_, ?_, ?_⟩
  · intro job env s0 sid hu hlen hP hg hc hd
    have hrun := processFlash_success job env s0 [] sid hu hlen hP hg hc hd
    rw [hrun]
    exact ⟨rfl, rfl⟩
  · intro job env s0 qid hu hlen hP hg hc hd
    have hrun := processQuiz_success job env s0 ⟨[]⟩ qid hu hlen hP hg hc hd
    rw [hrun]
    exact ⟨rfl, rfl⟩
  · intro job env s0 e hu hlen hP hge hF
    have hacq := fun s => acquireText_falsy (χ := CardRecord)
      job.fileUrl job.text env.extract s hu
    have hcond := cond_false_of_len _ hlen
    simp [processFlashcardJob, flashBody, addEv, failWrite,
      hP, hacq, hcond, hge, hF]
  · intro job env s0 e hu hlen hP hge hF
    have hacq := fun s => acquireText_falsy (χ := QuestionRecord)
      job.fileUrl job.text env.extract s hu
    have hcond := cond_false_of_len _ hlen
    simp [processQuizJob, quizBody, addEv, failWrite,
      hP, hacq, hcond, hge, hF]

/-- C5 witness: the demo flashcard run with an empty generation result
ends DONE with an empty artifact. -/
theorem c5_no_empty_validation_witness :
    (processFlashcardJob (flashJobText (some longText))
      (flashEnvAllOk (Except.ok [])) initState).row.status = "DONE" ∧
    (processFlashcardJob (flashJobText (some longText))
      (flashEnvAllOk (Except.ok [])) initState).artifact = some (7, []) :=
  c5_no_empty_validation.1 (flashJobText (some longText))
    (flashEnvAllOk (Except.ok [])) initState 7 rfl (by decide) rfl rfl rfl rfl

/-- C10 counterexample: for a present-but-empty stored questionTypes
string the code falls back to the default list, whereas splitting the
stored string on commas would give a one-element list holding the
empty string — so 'otherwise it is the stored string split on commas'
fails at the empty string. -/
theorem c10_param_counterexample :
    quizQuestionTypes (some "") = ["multiple_choice"] ∧
    jsSplitComma "" = [""] ∧
    quizQuestionTypes (some "") ≠ jsSplitComma "" := by
  refine ⟨rfl, rfl, ?_⟩
  decide

/-- C10 amended: quiz generation parameters are normalized before the
Generation Strategy is invoked: numberOfQuestions defaults to 10 when
the stored value does not parse as an integer or parses to 0 and is
the parsed value otherwise; difficulty defaults to 'medium' when
absent; questionTypes defaults to ['multiple_choice'] when absent or
empty, and otherwise is the stored string split on commas; and the
generation call receives exactly these normalized values. -/
theorem c10_param_normalization :
    (∀ v, parseIntJS v = none → quizNumQuestions v = 10) ∧
    (∀ v, parseIntJS v = some 0 → quizNumQuestions v = 10) ∧
    (∀ v k, parseIntJS v = some k → k ≠ 0 → quizNumQuestions v = k) ∧
    quizDifficulty none = "medium" ∧
    (∀ d, d ≠ "" → quizDifficulty (some d) = d) ∧
    quizQuestionTypes none = ["multiple_choice"] ∧
    quizQuestionTypes (some "") = ["multiple_choice"] ∧
    (∀ t, t ≠ "" → quizQuestionTypes (some t) = jsSplitComma t) ∧
    (∀ (job : QuizJob) (env : QuizEnv) (s0 : ProcState QuestionRecord),
      truthyS job.fileUrl = false →
      50 ≤ (jsTextOf job.text).length →
      (executeWithRetry env.updProcessing 3).result = .ok () →
      Ev.generateQuiz (quizNumQuestions job.numberOfQuestions)
        (quizDifficulty job.difficulty)
        (quizQuestionTypes job.questionTypes)
        ∈ (processQuizJob job env s0).trace) := by
  refine ⟨?_, ?_, ?_, rfl, ?_, rfl, rfl, ?_, ?_⟩
  · intro v hv
    simp [quizNumQuestions, hv]
  · intro v hv
    simp [quizNumQuestions, hv]
  · intro v k hv hk
    simp [quizNumQuestions, hv, hk]
  · intro d hd
    simp [quizDifficulty, isEmpty_false_of_ne d hd]
  · intro t ht
    simp [quizQuestionTypes, isEmpty_false_of_ne t ht]
  · intro job env s0 hu hlen hP
    exact processQuiz_reaches_generate job env s0 hu hlen hP

/-- C10 witness: a quiz job storing numberOfQuestions "5", no
difficulty and questionTypes "a,b" invokes generation with 5, 'medium'
and the comma-split list. -/
theorem c10_param_normalization_witness :
    Ev.generateQuiz (quizNumQuestions (some "5")) (quizDifficulty none)
      (quizQuestionTypes (some "a,b"))
      ∈ (processQuizJob
        (quizJobOf none (some longText) (some "5") none (some "a,b"))
        (quizEnvAllOk (Except.ok ⟨[]⟩)) initStateQ).trace :=
  c10_param_normalization.2.2.2.2.2.2.2.2
    (quizJobOf none (some longText) (some "5") none (some "a,b"))
    (quizEnvAllOk (Except.ok ⟨[]⟩)) initStateQ rfl (by decide) rfl

/-- batchInv_init: the invariant holds after the synchronous start-up
loop. -/
theorem batchInv_init (n limit : Nat) :
    BatchInv n limit (BatchState.init n limit) := by
  refine ⟨rfl, rfl, Nat.min_le_right _ _, Nat.le_refl _,
    by simp [BatchState.init], by simp [BatchState.init],
    by simp [BatchState.init, Nat.min_le_left], ?_⟩
  intro h
  right
  have h0 : min limit n = 0 := by
    simpa [BatchState.init, Finset.range_eq_empty_iff] using h
  simpa [BatchState.init] using h0

/-- batchInv_step: one settle-and-admit step preserves the invariant. -/
theorem batchInv_step (n limit : Nat) (s s' : BatchState)
    (hstep : BatchStep s s') (hinv : BatchInv n limit s) :
    BatchInv n limit s' := by
  obtain ⟨hn, hlm, hle, hmin, hun, hdisj, hcard, hemp⟩ := hinv
  subst hn hlm
  cases hstep with
  | settle t ht =>
    have hunx : ∀ x, (x ∈ s.running ∨ x ∈ s.done) ↔ x < s.next := by
      intro x
      have := Finset.ext_iff.mp hun x
      simpa using this
    have htlt : t < s.next := (hunx t).mp (Or.inl ht)
    have hcard1 : 1 ≤ s.running.card := Finset.card_pos.mpr ⟨t, ht⟩
    have hcarde : (s.running.erase t).card = s.running.card - 1 :=
      Finset.card_erase_of_mem ht
    by_cases hadm : s.next < s.n
    · refine ⟨rfl, rfl, by simp [hadm]; omega, ?_, ?_, ?_, ?_, ?_⟩
      · simp only [hadm, if_true]
        exact Nat.le_succ_of_le hmin
      · simp only [hadm, if_true]
        ext x
        simp only [Finset.mem_union, Finset.mem_erase, Finset.mem_insert,
          Finset.mem_singleton, Finset.mem_range]
        constructor
        · rintro ((⟨hxt, hx⟩ | hx) | (hx | hx))
          · have := (hunx x).mp (Or.inl hx)
            omega
          · omega
          · subst hx
            omega
          · have := (hunx x).mp (Or.inr hx)
            omega
        · intro hx
          rcases Nat.lt_succ_iff_lt_or_eq.mp hx with hx | hx
          · rcases (hunx x).mpr hx with hr | hd
            · by_cases hxt : x = t
              · exact Or.inr (Or.inl hxt)
              · exact Or.inl (Or.inl ⟨hxt, hr⟩)
            · exact Or.inr (Or.inr hd)
          · exact Or.inl (Or.inr hx)
      · simp only [hadm, if_true]
        rw [Finset.disjoint_left]
        intro x hx hx'
        simp only [Finset.mem_union, Finset.mem_erase,
          Finset.mem_singleton] at hx
        simp only [Finset.mem_insert] at hx'
        rcases hx with ⟨hxt, hxr⟩ | hxn
        · rcases hx' with hxt' | hxd
          · exact hxt hxt'
          · exact Finset.disjoint_left.mp hdisj hxr hxd
        · subst hxn
          rcases hx' with hxt' | hxd
          · subst hxt'
            omega
          · have := (hunx s.next).mp (Or.inr hxd)
            omega
      · simp only [hadm, if_true]
        have hub := Finset.card_union_le (s.running.erase t) {s.next}
        have hsing : ({s.next} : Finset Nat).card = 1 :=
          Finset.card_singleton _
        omega
      · simp only [hadm, if_true]
        intro habs
        have hmem : s.next ∈ s.running.erase t ∪ {s.next} := by
          simp
        rw [habs] at hmem
        simp at hmem
    · refine ⟨rfl, rfl, by simpa [hadm] using hle, by simpa [hadm] using hmin,
        ?_, ?_, ?_, ?_⟩
      · simp only [hadm, if_false]
        ext x
        simp only [Finset.union_empty, Finset.mem_union, Finset.mem_erase,
          Finset.mem_insert, Finset.mem_range]
        constructor
        · rintro (⟨hxt, hx⟩ | (hx | hx))
          · exact (hunx x).mp (Or.inl hx)
          · subst hx
            exact htlt
          · exact (hunx x).mp (Or.inr hx)
        · intro hx
          rcases (hunx x).mpr hx with hr | hd
          · by_cases hxt : x = t
            · exact Or.inr (Or.inl hxt)
            · exact Or.inl ⟨hxt, hr⟩
          · exact Or.inr (Or.inr hd)
      · simp only [hadm, if_false, Finset.union_empty]
        rw [Finset.disjoint_left]
        intro x hx hx'
        simp only [Finset.mem_erase] at hx
        simp only [Finset.mem_insert] at hx'
        rcases hx' with hxt' | hxd
        · exact hx.1 hxt'
        · exact Finset.disjoint_left.mp hdisj hx.2 hxd
      · simp only [hadm, if_false, Finset.union_empty]
        omega
      · simp only [hadm, if_false]
        intro _
        left
        omega

/-- batchReach_inv: the invariant holds in every reachable state. -/
theorem batchReach_inv (n limit : Nat) (s : BatchState)
    (h : BatchReach n limit s) : BatchInv n limit s := by
  induction h with
  | refl => exact batchInv_init n limit
  | tail hsteps hstep ih => exact batchInv_step n limit _ _ hstep ih

/-- batchTerminal_iff: runInBatches' await resolves exactly when no
task is in flight. -/
theorem batchTerminal_iff (s : BatchState) :
    BatchTerminal s ↔ s.running = ∅ := by
  constructor
  · intro h
    by_contra hne
    obtain ⟨t, ht⟩ := Finset.nonempty_iff_ne_empty.mpr hne
    exact h _ (BatchStep.settle s t ht)
  · intro he s' hstep
    cases hstep with
    | settle t ht =>
      rw [he] at ht
      simp at ht

/-- batch_done_le: in every reachable state at most n tasks have
settled. -/
theorem batch_done_le (n limit : Nat) (s : BatchState)
    (hreach : BatchReach n limit s) : s.done.card ≤ n := by
  obtain ⟨hn, hlm, hle, hmin, hun, hdisj, hcard, hemp⟩ :=
    batchReach_inv n limit s hreach
  have hsub : s.done ⊆ s.running ∪ s.done :=
    fun x hx => Finset.mem_union_right _ hx
  have hcardle := Finset.card_le_card hsub
  rw [hun, Finset.card_range] at hcardle
  omega

/-- batch_step_settles: each step settles exactly one previously
unsettled task, whatever that task's outcome was. -/
theorem batch_step_settles (n limit : Nat) (s s' : BatchState)
    (hreach : BatchReach n limit s) (hstep : BatchStep s s') :
    s'.done.card = s.done.card + 1 := by
  obtain ⟨hn, hlm, hle, hmin, hun, hdisj, hcard, hemp⟩ :=
    batchReach_inv n limit s hreach
  cases hstep with
  | settle t ht =>
    have htd : t ∉ s.done := Finset.disjoint_left.mp hdisj ht
    simp [Finset.card_insert_of_not_mem htd]

/-- batch_terminates_from: from every reachable state the run can be
continued to a terminal state; the settled count grows by one per step
and is bounded by n, so k = n steps always suffice. -/
theorem batch_terminates_from (n limit : Nat) :
    ∀ (k : Nat) (s : BatchState), BatchReach n limit s →
      n ≤ s.done.card + k →
      ∃ t, Relation.ReflTransGen BatchStep s t ∧ BatchTerminal t := by
  intro k
  induction k with
  | zero =>
    intro s hreach hk
    by_cases hterm : BatchTerminal s
    · exact ⟨s, Relation.ReflTransGen.refl, hterm⟩
    · unfold BatchTerminal at hterm
      push_neg at hterm
      obtain ⟨s', hstep⟩ := hterm
      have hcnt := batch_step_settles n limit s s' hreach hstep
      have hle := batch_done_le n limit s' (hreach.tail hstep)
      omega
  | succ k ih =>
    intro s hreach hk
    by_cases hterm : BatchTerminal s
    · exact ⟨s, Relation.ReflTransGen.refl, hterm⟩
    · unfold BatchTerminal at hterm
      push_neg at hterm
      obtain ⟨s', hstep⟩ := hterm
      have hcnt := batch_step_settles n limit s s' hreach hstep
      obtain ⟨t, hts, htt⟩ := ih s' (hreach.tail hstep) (by omega)
      exact ⟨t, Relation.ReflTransGen.head hstep hts, htt⟩

/-- batch_terminal_done: with a positive limit, a terminal reachable
state has every one of the n tasks settled. -/
theorem batch_terminal_done (n limit : Nat) (t : BatchState)
    (hl : 1 ≤ limit) (hreach : BatchReach n limit t)
    (hterm : BatchTerminal t) : t.done = Finset.range n := by
  obtain ⟨hn, hlm, hle, hmin, hun, hdisj, hcard, hemp⟩ :=
    batchReach_inv n limit t hreach
  have hre : t.running = ∅ := (batchTerminal_iff t).mp hterm
  have hnext : t.next = n := by
    rcases hemp hre with h | h
    · exact h
    · rw [h] at hmin
      omega
  rw [hre, Finset.empty_union] at hun
  rw [hun, hnext]

/-- C2 counterexample: with concurrency limit 0 (a value the claim's
'every concurrency limit' includes) and one task, the initial state is
already terminal — runInBatches returns at once — yet the task was
never invoked, so its index is missing from the settled set. -/
theorem c2_batch_counterexample :
    ¬ (∀ s : BatchState, BatchReach 1 0 s → BatchTerminal s →
        s.done = Finset.range 1) := by
  intro hall
  have hterm : BatchTerminal (BatchState.init 1 0) := by
    rw [batchTerminal_iff]
    decide
  have h0 := hall (BatchState.init 1 0) Relation.ReflTransGen.refl hterm
  exact absurd h0 (by decide)

/-- C2 amended: for every task list and every positive concurrency
limit L, in every reachable state of runInBatches at most L tasks are
unsettled, the admitted task indices split disjointly into in-flight
and settled (so no task is ever started twice), a settled task —
whether fulfilled or rejected — always enables a next step while tasks
remain, every step settles exactly one further task (so the run cannot
go on forever and a terminal state with all n tasks settled is always
reached), and in any terminal state every one of the n tasks has been
invoked and settled exactly once, at which point runInBatches
returns. -/
theorem c2_bounded_batch (n limit : Nat) (s : BatchState)
    (hl : 1 ≤ limit) (hreach : BatchReach n limit s) :
    s.running.card ≤ limit ∧
    Disjoint s.running s.done ∧
    s.running ∪ s.done = Finset.range s.next ∧
    s.next ≤ n ∧
    (¬ BatchTerminal s → ∃ s', BatchStep s s') ∧
    (∀ s', BatchStep s s' → s'.done.card = s.done.card + 1) ∧
    (∃ t, Relation.ReflTransGen BatchStep s t ∧ BatchTerminal t ∧
      t.done = Finset.range n) ∧
    (BatchTerminal s → s.done = Finset.range n) := by
  obtain ⟨hn, hlm, hle, hmin, hun, hdisj, hcard, hemp⟩ :=
    batchReach_inv n limit s hreach
  refine ⟨hcard, hdisj, hun, hle, ?_, ?_, ?_, ?_⟩
  · intro hnt
    unfold BatchTerminal at hnt
    push_neg at hnt
    exact hnt
  · intro s' hstep
    exact batch_step_settles n limit s s' hreach hstep
  · obtain ⟨t, hts, htt⟩ :=
      batch_terminates_from n limit n s hreach (by omega)
    exact ⟨t, hts, htt,
      batch_terminal_done n limit t hl (hreach.trans hts) htt⟩
  · intro hterm
    exact batch_terminal_done n limit s hl hreach hterm

/-- C2 witness: with 2 tasks and limit 1 the initial state has one
task in flight, within the limit, and satisfies every invariant. -/
theorem c2_bounded_batch_witness :
    (BatchState.init 2 1).running.card ≤ 1 ∧
    Disjoint (BatchState.init 2 1).running (BatchState.init 2 1).done ∧
    (BatchState.init 2 1).running ∪ (BatchState.init 2 1).done =
      Finset.range (BatchState.init 2 1).next ∧
    (BatchState.init 2 1).next ≤ 2 ∧
    (¬ BatchTerminal (BatchState.init 2 1) →
      ∃ s', BatchStep (BatchState.init 2 1) s') ∧
    (∀ s', BatchStep (BatchState.init 2 1) s' →
      s'.done.card = (BatchState.init 2 1).done.card + 1) ∧
    (∃ t, Relation.ReflTransGen BatchStep (BatchState.init 2 1) t ∧
      BatchTerminal t ∧ t.done = Finset.range 2) ∧
    (BatchTerminal (BatchState.init 2 1) →
      (BatchState.init 2 1).done = Finset.range 2) :=
  c2_bounded_batch 2 1 (BatchState.init 2 1) (by decide)
    Relation.ReflTransGen.refl

